import Mathlib

/-
Verification of the self-health-monitoring pipeline of the flex-living
repository: probe classification and retry (HealthMonitoringService),
structured logging with rotation (HealthLogger), the job scheduler
(CronJobManager), and configuration validation/update.

The definitions below are shallow embeddings of the TypeScript source.
Machine numbers are modelled as Nat/Int; asynchronous methods are modelled
as pure state-passing functions; thrown exceptions are modelled with
Except; the file system is modelled as an explicit state with failure
injection so that I/O errors can arise.
-/

/-- The tri-state health verdict used throughout the pipeline
(types/index.ts: HealthCheckResult.status). -/
inductive HealthStatus where
  | healthy
  | degraded
  | unhealthy
deriving DecidableEq, Repr

/-- HealthMonitoringService.determineHealthStatus: classification of a
received HTTP response. `bodyStatus` is the `status` field of the response
body when present (`responseData?.status`). -/
def determineHealthStatus (statusCode : Nat) (bodyStatus : Option String) :
    HealthStatus :=
  if 200 ≤ statusCode ∧ statusCode < 300 then
    if bodyStatus = some "degraded" ∨ bodyStatus = some "unhealthy" then
      HealthStatus.degraded
    else HealthStatus.healthy
  else if 500 ≤ statusCode then HealthStatus.unhealthy
  else HealthStatus.degraded

/-- The ways a single axios GET can fail (the branches of
HealthMonitoringService.handleHealthCheckError). `withResponse` is an axios
error that still carries an HTTP response. -/
inductive AxiosErrorKind where
  | connRefused
  | timedOut
  | hostNotFound
  | withResponse (status : Nat)
  | other (msg : String)
deriving DecidableEq, Repr

/-- Outcome of one axios GET against the health endpoint: either an HTTP
response was received (with its status code and the `status` field of its
body, if any), or the call failed. -/
inductive ProbeOutcome where
  | response (statusCode : Nat) (bodyStatus : Option String)
  | failure (kind : AxiosErrorKind)
deriving DecidableEq, Repr

/-- The httpStatusCode that handleHealthCheckError puts in the result:
the attached response status for an error that carries a response, 0
otherwise. -/
def handleHealthCheckErrorCode : AxiosErrorKind → Nat
  | AxiosErrorKind.withResponse s => s
  | _ => 0

/-- The fields of a HealthCheckResult that the retry logic and the claims
depend on (timestamps, messages and response bodies are carried along in
the source but never branched on). -/
structure HealthCheckResult where
  status : HealthStatus
  httpStatusCode : Nat
deriving DecidableEq, Repr

/-- HealthMonitoringService.performHealthCheck: one attempt. A received
response (axios is configured with validateStatus: () => true, so every
received response takes this path) is classified by determineHealthStatus;
a failed call is turned into an unhealthy result by handleHealthCheckError. -/
def performHealthCheck : ProbeOutcome → HealthCheckResult
  | ProbeOutcome.response c b =>
      { status := determineHealthStatus c b, httpStatusCode := c }
  | ProbeOutcome.failure k =>
      { status := HealthStatus.unhealthy,
        httpStatusCode := handleHealthCheckErrorCode k }

/-- The 2xx test used by performHealthCheckWithRetry. -/
def isSuccessCode (c : Nat) : Bool := 200 ≤ c ∧ c < 300

/-- Result of a run of performHealthCheckWithRetry together with the
number of probe attempts made and the number of retryDelay sleeps taken. -/
structure RetryRun where
  result : HealthCheckResult
  attempts : Nat
  delays : Nat
deriving DecidableEq, Repr

/-- The loop body of HealthMonitoringService.performHealthCheckWithRetry.
`endpoint` maps each attempt index to the outcome of that attempt;
`attempt` is the current index; the last argument is `maxRetries - attempt`
(the number of further attempts still allowed). On a 2xx result the loop
returns immediately; otherwise, if attempts remain, it sleeps once
(counted in `delays`) and retries. -/
def retryFrom (endpoint : Nat → ProbeOutcome) (attempt : Nat) :
    Nat → RetryRun
  | 0 =>
      { result := performHealthCheck (endpoint attempt),
        attempts := 1, delays := 0 }
  | rem + 1 =>
      let r := performHealthCheck (endpoint attempt)
      if isSuccessCode r.httpStatusCode then
        { result := r, attempts := 1, delays := 0 }
      else
        let rest := retryFrom endpoint (attempt + 1) rem
        { result := rest.result, attempts := rest.attempts + 1,
          delays := rest.delays + 1 }

/-- HealthMonitoringService.performHealthCheckWithRetry: attempts run from
index 0 to maxRetries. -/
def performHealthCheckWithRetry (endpoint : Nat → ProbeOutcome)
    (maxRetries : Nat) : RetryRun :=
  retryFrom endpoint 0 maxRetries

/-- Abbreviation: attempt `i` against `endpoint` yields a 2xx result. -/
def attemptSucceeds (endpoint : Nat → ProbeOutcome) (i : Nat) : Prop :=
  isSuccessCode (performHealthCheck (endpoint i)).httpStatusCode = true

instance (endpoint : Nat → ProbeOutcome) (i : Nat) :
    Decidable (attemptSucceeds endpoint i) := by
  unfold attemptSucceeds; infer_instance

/-- The log format configured on the logger (LoggerConfig.format). -/
inductive LogFormat where
  | json
  | text
deriving DecidableEq, Repr

/-- HealthLogger's constructor argument (utils/HealthLogger.ts:
LoggerConfig), with maxFileSize already parsed to bytes. The file path is
not tracked: the model follows one logger and identifies its active file
and numbered rotation files directly. -/
structure LoggerConfig where
  maxFileSize : Nat
  maxFiles : Nat
  format : LogFormat
deriving DecidableEq, Repr

/-- State of the slice of the file system owned by one HealthLogger:
the active log file (none = absent), the rotated generation files as an
association list from suffix index to content, and failure injection:
any fs call that touches the active file fails when `failActive`, and any
fs call that touches generation i fails when `i ∈ failGens` (existsSync
never fails, matching Node). -/
structure LogFS where
  active : Option String
  gens : List (Nat × String)
  failActive : Bool
  failGens : List Nat
deriving DecidableEq, Repr

/-- Content of generation file i, if it exists. -/
def lookupGen (fs : LogFS) (i : Nat) : Option String :=
  (fs.gens.find? (fun p => p.1 = i)).map (·.2)

/-- fs.existsSync on a generation file. -/
def genExists (fs : LogFS) (i : Nat) : Bool := (lookupGen fs i).isSome

/-- fs.existsSync on the active file. -/
def activeExists (fs : LogFS) : Bool := fs.active.isSome

/-- A HealthLogger operation: JavaScript exception semantics over the
file-system state — an exception propagates, but state changes made
before it persist (no rollback). -/
def LogOp (α : Type) : Type := LogFS → Except String α × LogFS

/-- Return without touching the file system. -/
def LogOp.pure (a : α) : LogOp α := fun fs => (Except.ok a, fs)

/-- Sequencing: an exception in the first operation skips the second. -/
def LogOp.bind (m : LogOp α) (f : α → LogOp β) : LogOp β := fun fs =>
  match m fs with
  | (Except.ok a, fs') => f a fs'
  | (Except.error e, fs') => (Except.error e, fs')

instance : Monad LogOp where
  pure := LogOp.pure
  bind := LogOp.bind

/-- A try/catch block. -/
def LogOp.tryCatch (m : LogOp α) (handler : String → LogOp α) : LogOp α :=
  fun fs =>
    match m fs with
    | (Except.ok a, fs') => (Except.ok a, fs')
    | (Except.error e, fs') => handler e fs'

/-- Raise an exception. -/
def LogOp.throw (e : String) : LogOp α := fun fs => (Except.error e, fs)

/-- fs.appendFile on the active file (creates it when absent). -/
def appendActive (line : String) : LogOp Unit := fun fs =>
  if fs.failActive then (Except.error "EIO", fs)
  else (Except.ok (),
    { fs with active := some ((fs.active.getD "") ++ line ++ "\n") })

/-- fs.statSync(...).size on the active file; ENOENT when it does not
exist yet. -/
def statActiveSize : LogOp Nat := fun fs =>
  if fs.failActive then (Except.error "EIO", fs)
  else
    match fs.active with
    | some c => (Except.ok c.length, fs)
    | none => (Except.error "ENOENT", fs)

/-- fs.unlinkSync on a generation file. -/
def unlinkGen (i : Nat) : LogOp Unit := fun fs =>
  if i ∈ fs.failGens then (Except.error "EIO", fs)
  else (Except.ok (), { fs with gens := fs.gens.filter (fun p => p.1 ≠ i) })

/-- fs.renameSync from generation i to generation j (overwrites j, the
POSIX rename semantics). -/
def renameGen (i j : Nat) : LogOp Unit := fun fs =>
  if i ∈ fs.failGens ∨ j ∈ fs.failGens then (Except.error "EIO", fs)
  else
    match lookupGen fs i with
    | some c =>
        (Except.ok (),
          { fs with gens :=
              (j, c) :: (fs.gens.filter (fun p => p.1 ≠ i ∧ p.1 ≠ j)) })
    | none => (Except.error "ENOENT", fs)

/-- fs.renameSync from the active file to generation 1. -/
def renameActiveToGen1 : LogOp Unit := fun fs =>
  if fs.failActive ∨ 1 ∈ fs.failGens then (Except.error "EIO", fs)
  else
    match fs.active with
    | some c =>
        (Except.ok (),
          { fs with
              active := none,
              gens := (1, c) :: (fs.gens.filter (fun p => p.1 ≠ 1)) })
    | none => (Except.error "ENOENT", fs)

/-- fs.unlinkSync on the active file. -/
def unlinkActive : LogOp Unit := fun fs =>
  if fs.failActive then (Except.error "EIO", fs)
  else (Except.ok (), { fs with active := none })

/-- fs.readFileSync on the active file. -/
def readActive : LogOp String := fun fs =>
  if fs.failActive then (Except.error "EIO", fs)
  else
    match fs.active with
    | some c => (Except.ok c, fs)
    | none => (Except.error "ENOENT", fs)

/-- The descending shift loop inside HealthLogger.rotateLogs: the
argument is the loop variable i, which runs from maxFiles - 1 down to 1.
If generation i exists it is deleted when i = maxFiles - 1 (the oldest
kept index) and renamed to generation i + 1 otherwise. -/
def rotateShift (maxFiles : Nat) : Nat → LogOp Unit
  | 0 => LogOp.pure ()
  | i + 1 =>
      LogOp.bind
        (fun fs =>
          if genExists fs (i + 1) then
            (if i + 1 = maxFiles - 1 then unlinkGen (i + 1)
             else renameGen (i + 1) (i + 2)) fs
          else (Except.ok (), fs))
        (fun _ => rotateShift maxFiles i)

/-- HealthLogger.rotateLogs: shift the retained generations, then move
the active file (when it exists) to generation 1. -/
def rotateLogs (maxFiles : Nat) : LogOp Unit :=
  LogOp.bind (rotateShift maxFiles (maxFiles - 1))
    (fun _ => fun fs =>
      if activeExists fs then renameActiveToGen1 fs else (Except.ok (), fs))

/-- HealthLogger.rotateLogsIfNeeded: stat the active file and rotate when
its size has reached the configured maximum; every error (including one
thrown inside rotateLogs) is caught and only reported to the diagnostic
stream. -/
def rotateLogsIfNeeded (cfg : LoggerConfig) : LogOp Unit :=
  LogOp.tryCatch
    (LogOp.bind statActiveSize
      (fun size =>
        if cfg.maxFileSize ≤ size then rotateLogs cfg.maxFiles
        else LogOp.pure ()))
    (fun _ => LogOp.pure ())

/-- HealthLogger.writeLogEntry: append the serialized record as one line.
The serialization itself (formatLogEntry plus the generated id and
timestamp) is abstracted as the rendered line `line`; no claim depends on
the rendered text. -/
def writeLogEntry (line : String) : LogOp Unit := appendActive line

/-- HealthLogger.logHealthCheck: write the entry, then check rotation;
any error is caught and only reported to the diagnostic stream, so the
operation itself returns normally. -/
def logHealthCheck (cfg : LoggerConfig) (line : String) : LogOp Unit :=
  LogOp.tryCatch
    (LogOp.bind (writeLogEntry line) (fun _ => rotateLogsIfNeeded cfg))
    (fun _ => LogOp.pure ())

/-- The ascending removal loop inside HealthLogger.clearLogs: the
argument counts the indices 1 .. maxFiles still to visit, so the call
with j visits index maxFiles - j + 1 next; each existing generation is
unlinked. -/
def clearGens (maxFiles : Nat) : Nat → LogOp Unit
  | 0 => LogOp.pure ()
  | j + 1 =>
      LogOp.bind
        (fun fs =>
          let i := maxFiles - j
          if genExists fs i then unlinkGen i fs else (Except.ok (), fs))
        (fun _ => clearGens maxFiles j)

/-- HealthLogger.clearLogs: remove the active file and every rotated
generation; an error is reported to the diagnostic stream and then
RETHROWN to the caller (the catch block ends in a throw). -/
def clearLogs (cfg : LoggerConfig) : LogOp Unit :=
  LogOp.tryCatch
    (LogOp.bind
      (fun fs => if activeExists fs then unlinkActive fs else (Except.ok (), fs))
      (fun _ => clearGens cfg.maxFiles cfg.maxFiles))
    (fun e => LogOp.throw e)

/-- HealthLogger.getRecentLogs: read the active file, split into lines,
and return the last `limit` lines reversed (most recent first) when the
format is json, the empty list for the text format; a missing file or any
error yields the empty list. JavaScript's lines.slice(-limit) returns the
whole array when limit = 0. -/
def getRecentLogs (cfg : LoggerConfig) (limit : Nat) : LogOp (List String) :=
  LogOp.tryCatch
    (fun fs =>
      if activeExists fs then
        (LogOp.bind readActive
          (fun content =>
            let lines := (content.splitOn "\n").filter (fun l => l ≠ "")
            match cfg.format with
            | LogFormat.json =>
                let recent :=
                  if limit = 0 then lines
                  else lines.drop (lines.length - limit)
                LogOp.pure recent.reverse
            | LogFormat.text => LogOp.pure [])) fs
      else (Except.ok [], fs))
    (fun _ => LogOp.pure [])

/-- Number of generation files that exist among indices 1 .. maxFiles
(the counting loop of HealthLogger.getLogStats; existsSync never throws). -/
def countGens (fs : LogFS) (maxFiles : Nat) : Nat :=
  ((List.range maxFiles).filter (fun j => genExists fs (j + 1))).length

/-- HealthLogger.getLogStats: current active-file size and total retained
file count. When statSync throws, the catch block falls through to the
return statement with the counters still at their initial zeros. -/
def getLogStats (cfg : LoggerConfig) : LogOp (Nat × Nat) := fun fs =>
  if activeExists fs then
    match statActiveSize fs with
    | (Except.ok n, fs') => (Except.ok (n, 1 + countGens fs' cfg.maxFiles), fs')
    | (Except.error _, fs') => (Except.ok (0, 0), fs')
  else (Except.ok (0, countGens fs cfg.maxFiles), fs)

/-- Job lifecycle state (types/index.ts: CronJobStatus.status). -/
inductive JobState where
  | stopped
  | running
  | error
deriving DecidableEq, Repr

/-- types/index.ts: CronJobStatus. Timestamps are abstracted as Nat ticks
(the source stores ISO strings of Date values). -/
structure CronJobStatus where
  id : String
  name : String
  schedule : String
  enabled : Bool
  lastRun : Option Nat
  nextRun : Option Nat
  status : JobState
  runCount : Nat
  errorCount : Nat
  lastError : Option String
deriving DecidableEq, Repr

/-- types/index.ts: CronJobConfig (the fields the scheduler branches on). -/
structure CronJobConfig where
  schedule : String
  enabled : Bool
  maxRetries : Int
  retryDelay : Int
  timeout : Int
deriving DecidableEq, Repr

/-- One entry of CronJobManager's job map. `inProgress` counts
executeHealthCheck invocations that have passed the runCount increment but
not yet completed; `completions` is a ghost counter of the number of times
the task body has completed (success or failure). Neither exists as a
field in the source; they make the execution-in-flight structure of the
async method explicit. -/
structure CronJob where
  config : CronJobConfig
  status : CronJobStatus
  inProgress : Nat
  completions : Nat
deriving DecidableEq, Repr

/-- services/CronJobManager.ts: the manager's state, a map from job id to
job, modelled as an association list. -/
structure CronJobManager where
  jobs : List (String × CronJob)
deriving DecidableEq, Repr

namespace CronJobManager

/-- this.jobs.get(jobId). -/
def getJob (m : CronJobManager) (jobId : String) : Option CronJob :=
  (m.jobs.find? (fun p => p.1 = jobId)).map (·.2)

/-- In-place mutation of the job stored under `jobId` (the source mutates
the job object held in the map). -/
def setJob (m : CronJobManager) (jobId : String) (j : CronJob) :
    CronJobManager :=
  { jobs := m.jobs.map (fun p => if p.1 = jobId then (jobId, j) else p) }

/-- CronJobManager.updateNextRunTime: nextRun is approximated as now plus
five minutes (300000 ms) regardless of the configured schedule. -/
def updateNextRunTime (now : Nat) (st : CronJobStatus) : CronJobStatus :=
  { st with nextRun := some (now + 300000) }

/-- CronJobManager.startJob. Not-found throws (modelled as Except.error);
a job whose status is "running" is refused with false; otherwise the
underlying task is started, enabled is set, status is (re)set to stopped
and nextRun recomputed (task.start does not throw, so the catch branch
returning false is dead). -/
def startJob (now : Nat) (m : CronJobManager) (jobId : String) :
    Except String Bool × CronJobManager :=
  match getJob m jobId with
  | none => (Except.error "Cron job not found", m)
  | some j =>
      if j.status.status = JobState.running then (Except.ok false, m)
      else
        let st := updateNextRunTime now
          { j.status with enabled := true, status := JobState.stopped }
        (Except.ok true, setJob m jobId { j with status := st })

/-- CronJobManager.stopJob. Not-found throws; otherwise the task is
stopped, enabled cleared, status set to stopped, nextRun cleared, and the
method returns true (task.stop does not throw, so the catch branch
returning false is dead). -/
def stopJob (m : CronJobManager) (jobId : String) :
    Except String Bool × CronJobManager :=
  match getJob m jobId with
  | none => (Except.error "Cron job not found", m)
  | some j =>
      let st := { j.status with
        enabled := false, status := JobState.stopped, nextRun := none }
      (Except.ok true, setJob m jobId { j with status := st })

/-- CronJobManager.restartJob: stop, clear lastError and errorCount, then
start again. -/
def restartJob (now : Nat) (m : CronJobManager) (jobId : String) :
    Except String Bool × CronJobManager :=
  match getJob m jobId with
  | none => (Except.error "Cron job not found", m)
  | some _ =>
      let m1 := (stopJob m jobId).2
      match getJob m1 jobId with
      | none => (Except.error "Cron job not found", m1)
      | some j1 =>
          let j2 := { j1 with status :=
            { j1.status with lastError := none, errorCount := 0 } }
          startJob now (setJob m1 jobId j2) jobId

/-- Entry of CronJobManager.executeHealthCheck, up to and including the
statements before the await: a missing job (or unset service) returns
without effect; otherwise status is set to running and runCount is
incremented before the task body is invoked. -/
def executeHealthCheckBegin (m : CronJobManager) (jobId : String) :
    CronJobManager :=
  match getJob m jobId with
  | none => m
  | some j =>
      setJob m jobId
        { j with
            status := { j.status with
              status := JobState.running,
              runCount := j.status.runCount + 1 },
            inProgress := j.inProgress + 1 }

/-- Completion of CronJobManager.executeHealthCheck for one in-flight
execution. `outcome = none` is the non-throwing path (performWithRetry
returned): status back to stopped, lastRun updated, lastError cleared.
`outcome = some e` is the catch path: status to error, errorCount
incremented, lastError recorded. Either way nextRun is recomputed and the
ghost completion counter advances. A completion event with no execution
in flight has no source counterpart and is ignored. -/
def executeHealthCheckEnd (now : Nat) (m : CronJobManager) (jobId : String)
    (outcome : Option String) : CronJobManager :=
  match getJob m jobId with
  | none => m
  | some j =>
      if j.inProgress = 0 then m
      else
        let j1 := { j with
                    inProgress := j.inProgress - 1,
                    completions := j.completions + 1 }
        match outcome with
        | none =>
            let st := updateNextRunTime now
              { j1.status with
                status := JobState.stopped,
                lastRun := some now,
                lastError := none }
            setJob m jobId { j1 with status := st }
        | some e =>
            let st := updateNextRunTime now
              { j1.status with
                status := JobState.error,
                errorCount := j1.status.errorCount + 1,
                lastError := some e,
                lastRun := some now }
            setJob m jobId { j1 with status := st }

/-- CronJobManager.createHealthMonitoringJob: refuses a duplicate id or an
invalid schedule (both throw — modelled as leaving the state unchanged),
otherwise registers the job at stopped with zero counters and starts it
when config.enabled. `cronValidate` abstracts node-cron's cron.validate. -/
def createHealthMonitoringJob (cronValidate : String → Bool) (now : Nat)
    (m : CronJobManager) (config : CronJobConfig) : CronJobManager :=
  if (getJob m "health-monitoring").isSome then m
  else if ¬ cronValidate config.schedule then m
  else
    let st : CronJobStatus :=
      { id := "health-monitoring", name := "Health Monitoring",
        schedule := config.schedule, enabled := config.enabled,
        lastRun := none, nextRun := none, status := JobState.stopped,
        runCount := 0, errorCount := 0, lastError := none }
    let m1 : CronJobManager :=
      { jobs := m.jobs ++
          [("health-monitoring",
            { config := config, status := st, inProgress := 0,
              completions := 0 })] }
    if config.enabled then (startJob now m1 "health-monitoring").2 else m1

/-- CronJobManager.removeJob. -/
def removeJob (m : CronJobManager) (jobId : String) :
    Bool × CronJobManager :=
  match getJob m jobId with
  | none => (false, m)
  | some _ => (true, { jobs := m.jobs.filter (fun p => p.1 ≠ jobId) })

/-- The counts returned by the recovery sweep
(CronJobManager.performHealthCheck). -/
structure SweepCounts where
  totalJobs : Nat
  healthyJobs : Nat
  errorJobs : Nat
  recoveredJobs : Nat
deriving DecidableEq, Repr

/-- One iteration of the sweep loop of CronJobManager.performHealthCheck,
for the job with the given id: a job in error state is counted, and
restarted when its errorCount is still below 5 (counting it as recovered
when restartJob returns true); a stopped-and-enabled job counts as
healthy. -/
def sweepStep (now : Nat) (acc : CronJobManager × SweepCounts)
    (jobId : String) : CronJobManager × SweepCounts :=
  let m := acc.1
  let c := acc.2
  match getJob m jobId with
  | none => (m, c)
  | some j =>
      if j.status.status = JobState.error then
        let c1 := { c with errorJobs := c.errorJobs + 1 }
        if j.status.errorCount < 5 then
          match restartJob now m jobId with
          | (Except.ok true, m1) =>
              (m1, { c1 with recoveredJobs := c1.recoveredJobs + 1 })
          | (_, m1) => (m1, c1)
        else (m, c1)
      else if j.status.status = JobState.stopped ∧ j.status.enabled then
        (m, { c with healthyJobs := c.healthyJobs + 1 })
      else (m, c)

/-- CronJobManager.performHealthCheck: the automatic recovery sweep across
all registered jobs (totalJobs is read off before the loop). -/
def performHealthCheckSweep (now : Nat) (m : CronJobManager) :
    CronJobManager × SweepCounts :=
  (m.jobs.map (·.1)).foldl (sweepStep now)
    (m, { totalJobs := m.jobs.length, healthyJobs := 0, errorJobs := 0,
          recoveredJobs := 0 })

/-- The scheduler operations a run can interleave. fireBegin/fireEnd are
the two halves of a scheduled fire of executeHealthCheck (the await on
performHealthCheckWithRetry sits between them). -/
inductive SchedulerEvent where
  | create (config : CronJobConfig)
  | fireBegin (jobId : String)
  | fireEnd (now : Nat) (jobId : String) (outcome : Option String)
  | start (now : Nat) (jobId : String)
  | stop (jobId : String)
  | restart (now : Nat) (jobId : String)
  | recover (now : Nat)
  | remove (jobId : String)

/-- Interpretation of one scheduler event as a state transformation
(return values and thrown not-found errors do not change the state beyond
what the operation itself did). -/
def step (cronValidate : String → Bool) (m : CronJobManager) :
    SchedulerEvent → CronJobManager
  | SchedulerEvent.create config =>
      createHealthMonitoringJob cronValidate 0 m config
  | SchedulerEvent.fireBegin jobId => executeHealthCheckBegin m jobId
  | SchedulerEvent.fireEnd now jobId outcome =>
      executeHealthCheckEnd now m jobId outcome
  | SchedulerEvent.start now jobId => (startJob now m jobId).2
  | SchedulerEvent.stop jobId => (stopJob m jobId).2
  | SchedulerEvent.restart now jobId => (restartJob now m jobId).2
  | SchedulerEvent.recover now => (performHealthCheckSweep now m).1
  | SchedulerEvent.remove jobId => (removeJob m jobId).2

/-- A fresh manager (constructed once at process start). -/
def init : CronJobManager := { jobs := [] }

/-- Run a sequence of scheduler events from the fresh manager. -/
def run (cronValidate : String → Bool) (events : List SchedulerEvent) :
    CronJobManager :=
  events.foldl (step cronValidate) init

end CronJobManager

/-- The logging section of HealthMonitoringConfig as it exists at runtime.
The TypeScript interface declares every field required, but updateConfig
replaces the section wholesale with a caller-supplied object, so at
runtime any field may be absent; absence is modelled as none. -/
structure LoggingSection where
  enabled : Option Bool
  filePath : Option String
  maxFileSize : Option String
  maxFiles : Option Nat
  format : Option LogFormat
deriving DecidableEq, Repr

/-- types/index.ts: HealthMonitoringConfig (the optional notifications
section is never read by the monitoring code and is omitted). -/
structure HealthMonitoringConfig where
  cronJob : CronJobConfig
  healthCheckEndpoint : String
  logging : LoggingSection
deriving DecidableEq, Repr

/-- HealthMonitoringService.validateConfig: a chain of if/throw checks,
each throwing its own message; the first violated check wins. JavaScript
truthiness: an empty string is falsy, `config.logging.enabled` is truthy
exactly when it is present and true, and `!config.logging.filePath` holds
when the path is absent or empty. -/
def validateConfig (c : HealthMonitoringConfig) : Except String Unit :=
  if c.healthCheckEndpoint = "" then
    Except.error "Health check endpoint is required"
  else if c.cronJob.schedule = "" then
    Except.error "Cron schedule is required"
  else if c.cronJob.maxRetries < 0 then
    Except.error "Max retries must be non-negative"
  else if c.cronJob.retryDelay < 0 then
    Except.error "Retry delay must be non-negative"
  else if c.cronJob.timeout ≤ 0 then
    Except.error "Timeout must be positive"
  else if c.logging.enabled = some true ∧
      (c.logging.filePath = none ∨ c.logging.filePath = some "") then
    Except.error "Log file path is required when logging is enabled"
  else Except.ok ()

/-- Numeric value of a run of decimal digits. -/
def digitsVal (ds : List Char) : Nat :=
  ds.foldl (fun acc c => acc * 10 + (c.toNat - 48)) 0

/-- HealthMonitoringService.parseFileSize: matches the size string against
the pattern digits, optional dot-digits, optional whitespace, a unit of
one or two letters (case-insensitive), anchored at both ends; unknown
units are rejected; the byte count is the floor of the parsed decimal
times the unit multiplier (the source computes it with parseFloat and
Math.floor; for decimal literals and these multipliers that floor is the
exact rational floor computed here). -/
def parseFileSize (sizeStr : String) : Except String Nat :=
  let cs := sizeStr.toList
  let intDigits := cs.takeWhile Char.isDigit
  let rest1 := cs.dropWhile Char.isDigit
  if intDigits = [] then
    Except.error ("Invalid file size format: " ++ sizeStr)
  else
    let fracAndRest : List Char × List Char :=
      match rest1 with
      | '.' :: t =>
          if t.takeWhile Char.isDigit = [] then ([], rest1)
          else (t.takeWhile Char.isDigit, t.dropWhile Char.isDigit)
      | _ => ([], rest1)
    let fracDigits := fracAndRest.1
    let rest3 := fracAndRest.2.dropWhile Char.isWhitespace
    if rest3 = [] ∨ ¬ rest3.all Char.isAlpha ∨ 2 < rest3.length then
      Except.error ("Invalid file size format: " ++ sizeStr)
    else
      let unit := rest3.map Char.toUpper
      let mult : Option Nat :=
        if unit = ['B'] then some 1
        else if unit = ['K', 'B'] then some 1024
        else if unit = ['M', 'B'] then some (1024 * 1024)
        else if unit = ['G', 'B'] then some (1024 * 1024 * 1024)
        else none
      match mult with
      | none => Except.error ("Unknown file size unit: " ++ String.mk rest3)
      | some k =>
          let L := fracDigits.length
          Except.ok
            ((digitsVal intDigits * 10 ^ L + digitsVal fracDigits) * k /
              10 ^ L)

/-- The argument object the HealthMonitoringService constructor and
updateConfig pass to `new HealthLogger(...)`, before the logger fills in
defaults: each value is read off the logging section (absent fields pass
through as undefined), except maxFileSize which goes through
parseFileSize. -/
structure HealthLoggerInit where
  filePath : Option String
  maxFileSize : Nat
  maxFiles : Option Nat
  format : Option LogFormat
deriving DecidableEq, Repr

/-- Construction of the HealthLogger init object from a logging section.
Calling parseFileSize on an absent maxFileSize is the JavaScript
`sizeStr.match` on undefined: a thrown TypeError. -/
def mkLoggerInit (l : LoggingSection) : Except String HealthLoggerInit :=
  match l.maxFileSize with
  | none => Except.error "TypeError: sizeStr is undefined"
  | some s =>
      match parseFileSize s with
      | Except.error e => Except.error e
      | Except.ok n =>
          Except.ok
            { filePath := l.filePath, maxFileSize := n,
              maxFiles := l.maxFiles, format := l.format }

/-- Partial<HealthMonitoringConfig> as updateConfig receives it: each
top-level section is either absent or supplied whole. -/
structure HealthMonitoringConfigUpdate where
  cronJob : Option CronJobConfig
  healthCheckEndpoint : Option String
  logging : Option LoggingSection
deriving DecidableEq, Repr

/-- HealthMonitoringService.updateConfig: a single-level object spread
`{ ...this.config, ...newConfig }` — every section present in the update
replaces the stored section wholesale — followed, when a logging section
was supplied, by reconstruction of the HealthLogger from the replaced
section. Returns the new config together with the init object of the
rebuilt logger (none when logging was not supplied). -/
def updateConfig (c : HealthMonitoringConfig)
    (p : HealthMonitoringConfigUpdate) :
    Except String (HealthMonitoringConfig × Option HealthLoggerInit) :=
  let c1 : HealthMonitoringConfig :=
    { cronJob := p.cronJob.getD c.cronJob,
      healthCheckEndpoint :=
        p.healthCheckEndpoint.getD c.healthCheckEndpoint,
      logging := p.logging.getD c.logging }
  if p.logging.isSome then
    match mkLoggerInit c1.logging with
    | Except.error e => Except.error e
    | Except.ok li => Except.ok (c1, some li)
  else Except.ok (c1, none)

/-- HealthMonitoringController.triggerHealthCheck: the manual trigger
calls healthMonitoringService.performHealthCheckWithRetry directly and
responds with its result; the CronJobManager held by the same controller
is neither consulted nor modified. -/
def triggerHealthCheck (endpoint : Nat → ProbeOutcome) (maxRetries : Nat)
    (m : CronJobManager) : HealthCheckResult × CronJobManager :=
  ((performHealthCheckWithRetry endpoint maxRetries).result, m)

/-- Whether an HTTP response was received at all on this probe. -/
def receivedResponse : ProbeOutcome → Bool
  | ProbeOutcome.response _ _ => true
  | ProbeOutcome.failure _ => false

/-- The body's explicit status signal, when a response carried one. -/
def bodySignal : ProbeOutcome → Option String
  | ProbeOutcome.response _ b => b
  | ProbeOutcome.failure _ => none

/-- Modelled from the claim's words (C2): the classification the claim
asserts — a 2xx body signal is honored as stated (an unhealthy signal
yields unhealthy), and a result is unhealthy exactly when the status code
is at least 500 or no response was received (httpStatusCode = 0). -/
def claimedProbeStatus (o : ProbeOutcome) : HealthStatus :=
  let code := (performHealthCheck o).httpStatusCode
  if 200 ≤ code ∧ code < 300 then
    if bodySignal o = some "unhealthy" then HealthStatus.unhealthy
    else if bodySignal o = some "degraded" then HealthStatus.degraded
    else HealthStatus.healthy
  else if 500 ≤ code ∨ code = 0 then HealthStatus.unhealthy
  else HealthStatus.degraded

/-- The classification the code actually implements, phrased as the
corrected claim words it: a failed request is unhealthy no matter what
status code the error carried; a received 2xx whose body signals degraded
or unhealthy is degraded (the signaled unhealthy is not honored), a plain
2xx is healthy; a received 5xx is unhealthy; every other received status
is degraded. -/
def amendedProbeStatus (o : ProbeOutcome) : HealthStatus :=
  if receivedResponse o then
    let code := (performHealthCheck o).httpStatusCode
    if 200 ≤ code ∧ code < 300 then
      if bodySignal o = some "degraded" ∨ bodySignal o = some "unhealthy"
        then HealthStatus.degraded
      else HealthStatus.healthy
    else if 500 ≤ code then HealthStatus.unhealthy
    else HealthStatus.degraded
  else HealthStatus.unhealthy

/-- An endpoint that always answers HTTP 500 (the claim's total-failure
scenario). -/
def ep500 : Nat → ProbeOutcome := fun _ => ProbeOutcome.response 500 none

/-- An endpoint that fails on attempt 0 and answers HTTP 200 from attempt
1 on (the claim's early-success scenario; the claim counts attempts from
1, this model from 0). -/
def epFailThen200 : Nat → ProbeOutcome := fun i =>
  if i = 0 then ProbeOutcome.failure AxiosErrorKind.connRefused
  else ProbeOutcome.response 200 none

/-- A logger configuration used by the concrete logger scenarios. -/
def demoLoggerCfg : LoggerConfig :=
  { maxFileSize := 1000, maxFiles := 3, format := LogFormat.json }

/-- A file-system state in which the active log file exists and every fs
call that touches it raises an I/O error. -/
def clearCexFS : LogFS :=
  { active := some "x", gens := [], failActive := true, failGens := [] }

/-- The file system before the logger's first append: no active file, no
rotated generations, no injected failures. -/
def emptyLogFS : LogFS :=
  { active := none, gens := [], failActive := false, failGens := [] }

/-- No fs failure is injected anywhere. -/
def noFail (fs : LogFS) : Prop :=
  fs.failActive = false ∧ fs.failGens = []

/-- The generation files are well formed for ceiling N: distinct indices,
each between 1 and N - 1. -/
def gensWF (N : Nat) (fs : LogFS) : Prop :=
  (fs.gens.map Prod.fst).Nodup ∧ ∀ p ∈ fs.gens, 1 ≤ p.1 ∧ p.1 + 1 ≤ N

/-- Rotation as the claim describes it (C4): every retained generation
file is shifted up by one suffix index, only generations that would land
beyond the ceiling are dropped, and the active file becomes generation 1. -/
def claimedRotate (maxFiles : Nat) (fs : LogFS) : LogFS :=
  { fs with
    active := none,
    gens :=
      (match fs.active with
        | some c => [(1, c)]
        | none => []) ++
      ((fs.gens.map (fun p => (p.1 + 1, p.2))).filter
        (fun p => p.1 ≤ maxFiles)) }

/-- The concrete pre-rotation state of the C4 scenario: maxFiles = 3,
generations 1 and 2 on disk, an active file about to rotate. -/
def rotateCexFS : LogFS :=
  { active := some "c", gens := [(1, "a"), (2, "b")],
    failActive := false, failGens := [] }

/-- The public logger operations a run of the logger can interleave. -/
inductive LoggerEvent where
  | append (line : String)
  | readRecent (limit : Nat)
  | stats
  | clear

/-- Run a sequence of logger operations, tracking the file system. -/
def runLogger (cfg : LoggerConfig) (evs : List LoggerEvent) (fs : LogFS) :
    LogFS :=
  evs.foldl
    (fun s e =>
      match e with
      | LoggerEvent.append line => (logHealthCheck cfg line s).2
      | LoggerEvent.readRecent limit => (getRecentLogs cfg limit s).2
      | LoggerEvent.stats => (getLogStats cfg s).2
      | LoggerEvent.clear => (clearLogs cfg s).2)
    fs

/-- An operation preserves well-formedness of the generation files. -/
def PreservesWF (N : Nat) (m : LogOp α) : Prop :=
  ∀ fs, gensWF N fs → gensWF N (m fs).2

namespace CronJobManager

/-- The counter invariant of one job: errorCount never exceeds the number
of completed task-body executions, and runCount (incremented on entry to
executeHealthCheck) equals completed executions plus executions still in
flight. -/
def JobInv (j : CronJob) : Prop :=
  j.status.errorCount ≤ j.completions ∧
  j.status.runCount = j.completions + j.inProgress

/-- The counter invariant of every registered job. -/
def ManagerInv (m : CronJobManager) : Prop := ∀ p ∈ m.jobs, JobInv p.2

end CronJobManager

/-- A job configuration used by the concrete scheduler scenarios. -/
def demoCronCfg : CronJobConfig :=
  { schedule := "*/5 * * * *", enabled := false, maxRetries := 2,
    retryDelay := 5000, timeout := 5000 }

/-- A run that registers the health-monitoring job and completes one
scheduled fire successfully at time 7. -/
def demoEvents : List CronJobManager.SchedulerEvent :=
  [CronJobManager.SchedulerEvent.create demoCronCfg,
   CronJobManager.SchedulerEvent.fireBegin "health-monitoring",
   CronJobManager.SchedulerEvent.fireEnd 7 "health-monitoring" none]

/-- The job record produced by that run. -/
def demoJob : CronJob :=
  { config := demoCronCfg,
    status :=
      { id := "health-monitoring", name := "Health Monitoring",
        schedule := "*/5 * * * *", enabled := false, lastRun := some 7,
        nextRun := some 300007, status := JobState.stopped, runCount := 1,
        errorCount := 0, lastError := none },
    inProgress := 0, completions := 1 }

namespace CronJobManager

/-- List-level form of the setJob replacement map. -/
def replaceEntry (jobId : String) (j : CronJob)
    (p : String × CronJob) : String × CronJob :=
  if p.1 = jobId then (jobId, j) else p

/-- The job produced by stopJob's update. -/
def stoppedJob (j : CronJob) : CronJob :=
  { j with
    status :=
      { j.status with
        enabled := false, status := JobState.stopped, nextRun := none } }

/-- The job produced by a successful restartJob at time now: stopped
state, enabled, recomputed nextRun, errorCount and lastError cleared. -/
def recoveredJob (now : Nat) (j : CronJob) : CronJob :=
  { j with
    status :=
      { j.status with
        enabled := true, status := JobState.stopped,
        nextRun := some (now + 300000), errorCount := 0,
        lastError := none } }

/-- Boolean predicate: the job is in error state. -/
def errP (j : CronJob) : Bool :=
  decide (j.status.status = JobState.error)

/-- Boolean predicate: the job is in error state with errorCount below
the recovery ceiling of 5. -/
def recovP (j : CronJob) : Bool :=
  decide (j.status.status = JobState.error ∧ j.status.errorCount < 5)

/-- Boolean predicate: the job counts as healthy for the sweep (stopped
and enabled). -/
def healthyP (j : CronJob) : Bool :=
  decide (j.status.status = JobState.stopped ∧ j.status.enabled = true)

/-- Predicate evaluation through a lookup. -/
def jobPred (m : CronJobManager) (q : CronJob → Bool)
    (jobId : String) : Bool :=
  match getJob m jobId with
  | some j => q j
  | none => false

/-- The per-job effect of the recovery sweep: jobs in error state with
errorCount below 5 are recovered, every other job is untouched. -/
def sweepTransform (now : Nat) (j : CronJob) : CronJob :=
  if j.status.status = JobState.error ∧ j.status.errorCount < 5 then
    recoveredJob now j
  else j

end CronJobManager

/-- Job in error state with errorCount 2 (eligible for auto-recovery). -/
def sweepErrJob2 : CronJob :=
  { config := demoCronCfg,
    status :=
      { id := "a", name := "A", schedule := "*/5 * * * *",
        enabled := true, lastRun := none, nextRun := none,
        status := JobState.error, runCount := 4, errorCount := 2,
        lastError := some "boom" },
    inProgress := 0, completions := 4 }

/-- Job in error state whose errorCount has reached the ceiling of 5. -/
def sweepErrJob5 : CronJob :=
  { config := demoCronCfg,
    status :=
      { id := "b", name := "B", schedule := "*/5 * * * *",
        enabled := true, lastRun := none, nextRun := none,
        status := JobState.error, runCount := 9, errorCount := 5,
        lastError := some "down" },
    inProgress := 0, completions := 9 }

/-- A healthy (stopped and enabled) job. -/
def sweepHealthyJob : CronJob :=
  { config := demoCronCfg,
    status :=
      { id := "c", name := "C", schedule := "*/5 * * * *",
        enabled := true, lastRun := some 1, nextRun := some 2,
        status := JobState.stopped, runCount := 3, errorCount := 0,
        lastError := none },
    inProgress := 0, completions := 3 }

/-- A manager holding one recoverable error job, one error job at the
ceiling, and one healthy job. -/
def sweepDemoManager : CronJobManager :=
  { jobs := [("a", sweepErrJob2), ("b", sweepErrJob5),
             ("c", sweepHealthyJob)] }

/-- A registered, enabled job with a computed nextRun, about to be
stopped. -/
def stopDemoJob : CronJob :=
  { config := demoCronCfg,
    status :=
      { id := "health-monitoring", name := "Health Monitoring",
        schedule := "*/5 * * * *", enabled := true, lastRun := some 1,
        nextRun := some 42, status := JobState.stopped, runCount := 2,
        errorCount := 0, lastError := none },
    inProgress := 0, completions := 2 }

/-- A manager holding that one job. -/
def stopDemoManager : CronJobManager :=
  { jobs := [("health-monitoring", stopDemoJob)] }

/-- The configuration fields validateConfig checks. -/
inductive ConfigField where
  | endpointField
  | scheduleField
  | maxRetriesField
  | retryDelayField
  | timeoutField
  | logFilePathField
deriving DecidableEq, Repr

/-- Modelled from the claim's words (C8): the set of offending fields of
a configuration, i.e. the fields violating the claim's validity
conditions, in the order validateConfig checks them. -/
def offendingFields (c : HealthMonitoringConfig) : List ConfigField :=
  (if c.healthCheckEndpoint = "" then [ConfigField.endpointField]
   else []) ++
  (if c.cronJob.schedule = "" then [ConfigField.scheduleField] else []) ++
  (if c.cronJob.maxRetries < 0 then [ConfigField.maxRetriesField]
   else []) ++
  (if c.cronJob.retryDelay < 0 then [ConfigField.retryDelayField]
   else []) ++
  (if c.cronJob.timeout ≤ 0 then [ConfigField.timeoutField] else []) ++
  (if c.logging.enabled = some true ∧
      (c.logging.filePath = none ∨ c.logging.filePath = some "") then
    [ConfigField.logFilePathField]
   else [])

/-- The single field each of validateConfig's error messages names. -/
def errorField (msg : String) : Option ConfigField :=
  if msg = "Health check endpoint is required" then
    some ConfigField.endpointField
  else if msg = "Cron schedule is required" then
    some ConfigField.scheduleField
  else if msg = "Max retries must be non-negative" then
    some ConfigField.maxRetriesField
  else if msg = "Retry delay must be non-negative" then
    some ConfigField.retryDelayField
  else if msg = "Timeout must be positive" then
    some ConfigField.timeoutField
  else if msg = "Log file path is required when logging is enabled" then
    some ConfigField.logFilePathField
  else none

/-- A fully populated, valid logging section. -/
def validLoggingSection : LoggingSection :=
  { enabled := some true, filePath := some "/var/log/health.log",
    maxFileSize := some "10MB", maxFiles := some 3,
    format := some LogFormat.json }

/-- A configuration violating both the schedule and the timeout
condition (everything else valid). -/
def cfgScheduleAndTimeout : HealthMonitoringConfig :=
  { cronJob :=
      { schedule := "", enabled := true, maxRetries := 0,
        retryDelay := 0, timeout := 0 },
    healthCheckEndpoint := "/api/health",
    logging := validLoggingSection }

/-- A fully valid configuration. -/
def fullyValidCfg : HealthMonitoringConfig :=
  { cronJob :=
      { schedule := "*/5 * * * *", enabled := true, maxRetries := 3,
        retryDelay := 5000, timeout := 10000 },
    healthCheckEndpoint := "/api/health",
    logging := validLoggingSection }

/-- An update carrying a logging section that omits maxFiles. -/
def updateDemoSection : LoggingSection :=
  { enabled := some true, filePath := some "/tmp/new.log",
    maxFileSize := some "10MB", maxFiles := none,
    format := some LogFormat.text }

/-- A partial update supplying only the logging section. -/
def updateDemo : HealthMonitoringConfigUpdate :=
  { cronJob := none, healthCheckEndpoint := none,
    logging := some updateDemoSection }

/-- The configuration updateConfig produces for that update. -/
def updateDemoResult : HealthMonitoringConfig :=
  { cronJob := fullyValidCfg.cronJob,
    healthCheckEndpoint := fullyValidCfg.healthCheckEndpoint,
    logging := updateDemoSection }

/-- The logger init object rebuilt from the supplied section alone. -/
def updateDemoInit : HealthLoggerInit :=
  { filePath := some "/tmp/new.log", maxFileSize := 10485760,
    maxFiles := none, format := some LogFormat.text }

/-- Each recursion step of the retry loop makes at most one attempt per
remaining allowance. -/
theorem retryFrom_attempts_le (endpoint : Nat → ProbeOutcome)
    (attempt rem : Nat) :
    (retryFrom endpoint attempt rem).attempts ≤ rem + 1 := by
  induction rem generalizing attempt with
  | zero => simp [retryFrom]
  | succ n ih =>
      simp only [retryFrom]
      split
      · simp
      · simpa using Nat.succ_le_succ (ih (attempt + 1))

/-- The loop sleeps exactly once between consecutive attempts: the number
of delays is one less than the number of attempts. -/
theorem retryFrom_delays (endpoint : Nat → ProbeOutcome)
    (attempt rem : Nat) :
    (retryFrom endpoint attempt rem).delays + 1 =
      (retryFrom endpoint attempt rem).attempts := by
  induction rem generalizing attempt with
  | zero => simp [retryFrom]
  | succ n ih =>
      simp only [retryFrom]
      split
      · simp
      · simpa using ih (attempt + 1)

/-- Early-success characterization of the loop: if attempt `attempt + i`
is the first success within the allowance, the loop stops there. -/
theorem retryFrom_early_success (endpoint : Nat → ProbeOutcome)
    (rem : Nat) :
    ∀ attempt i, i ≤ rem →
      (∀ j, j < i → ¬ attemptSucceeds endpoint (attempt + j)) →
      attemptSucceeds endpoint (attempt + i) →
      retryFrom endpoint attempt rem =
        { result := performHealthCheck (endpoint (attempt + i)),
          attempts := i + 1, delays := i } := by
  induction rem with
  | zero =>
      intro attempt i hi _ _
      interval_cases i
      simp [retryFrom]
  | succ n ih =>
      intro attempt i hi hbefore hsucc
      match i with
      | 0 =>
          have h0 : isSuccessCode
              (performHealthCheck (endpoint attempt)).httpStatusCode = true := by
            simpa [attemptSucceeds] using hsucc
          simp [retryFrom, h0]
      | k + 1 =>
          have h0 : ¬ attemptSucceeds endpoint attempt := by
            simpa using hbefore 0 (Nat.succ_pos k)
          have h0' : ¬ isSuccessCode
              (performHealthCheck (endpoint attempt)).httpStatusCode = true := by
            simpa [attemptSucceeds] using h0
          have hrec := ih (attempt + 1) k (Nat.le_of_succ_le_succ hi)
            (fun j hj => by
              have := hbefore (j + 1) (Nat.succ_lt_succ hj)
              simpa [Nat.add_assoc, Nat.add_comm 1 j] using this)
            (by simpa [Nat.add_assoc, Nat.add_comm 1 k] using hsucc)
          have harr : attempt + 1 + k = attempt + (k + 1) := by omega
          simp [retryFrom, h0', hrec, harr]

/-- All-fail characterization of the loop: when no attempt within the
allowance is a success, the loop exhausts the allowance and returns the
final attempt's result. -/
theorem retryFrom_all_fail (endpoint : Nat → ProbeOutcome) (rem : Nat) :
    ∀ attempt,
      (∀ i, i ≤ rem → ¬ attemptSucceeds endpoint (attempt + i)) →
      retryFrom endpoint attempt rem =
        { result := performHealthCheck (endpoint (attempt + rem)),
          attempts := rem + 1, delays := rem } := by
  induction rem with
  | zero =>
      intro attempt _
      simp [retryFrom]
  | succ n ih =>
      intro attempt hall
      have h0 : ¬ isSuccessCode
          (performHealthCheck (endpoint attempt)).httpStatusCode = true := by
        have := hall 0 (Nat.zero_le _)
        simpa [attemptSucceeds] using this
      have hrec := ih (attempt + 1) (fun i hi => by
        have := hall (i + 1) (Nat.succ_le_succ hi)
        simpa [Nat.add_assoc, Nat.add_comm 1 i] using this)
      have harr : attempt + 1 + n = attempt + (n + 1) := by omega
      simp [retryFrom, h0, hrec, harr]

/-- C1. For every endpoint behavior and every maxRetries = R ≥ 0,
performHealthCheckWithRetry makes at most R + 1 attempts; it sleeps
exactly once between consecutive attempts and never after the last
(delays = attempts - 1); if attempt i (0-based) is the first attempt with
a 2xx status, exactly i + 1 attempts are made and that attempt's result is
returned; if no attempt within the allowance has a 2xx status, exactly
R + 1 attempts are made and the final attempt's result is returned. -/
theorem performHealthCheckWithRetry_spec (endpoint : Nat → ProbeOutcome)
    (R : Nat) :
    (performHealthCheckWithRetry endpoint R).attempts ≤ R + 1 ∧
    (performHealthCheckWithRetry endpoint R).delays + 1 =
      (performHealthCheckWithRetry endpoint R).attempts ∧
    (∀ i, i ≤ R → (∀ j, j < i → ¬ attemptSucceeds endpoint j) →
      attemptSucceeds endpoint i →
      (performHealthCheckWithRetry endpoint R).attempts = i + 1 ∧
      (performHealthCheckWithRetry endpoint R).result =
        performHealthCheck (endpoint i)) ∧
    ((∀ i, i ≤ R → ¬ attemptSucceeds endpoint i) →
      (performHealthCheckWithRetry endpoint R).attempts = R + 1 ∧
      (performHealthCheckWithRetry endpoint R).result =
        performHealthCheck (endpoint R)) := by
  refine ⟨retryFrom_attempts_le endpoint 0 R,
    retryFrom_delays endpoint 0 R, ?_, ?_⟩
  · intro i hi hbefore hsucc
    have h := retryFrom_early_success endpoint R 0 i hi
      (fun j hj => by simpa using hbefore j hj) (by simpa using hsucc)
    unfold performHealthCheckWithRetry
    rw [h]
    exact ⟨rfl, by simp⟩
  · intro hall
    have h := retryFrom_all_fail endpoint R 0
      (fun i hi => by simpa using hall i hi)
    unfold performHealthCheckWithRetry
    rw [h]
    exact ⟨rfl, by simp⟩

/-- Witness for C1: with maxRetries = 3 against an endpoint that fails on
attempt 0 and succeeds on attempt 1, exactly 2 attempts are made and the
successful result is returned; with maxRetries = 2 against an endpoint
that always answers HTTP 500, exactly 3 attempts are made, the returned
result has httpStatusCode = 500, and 2 sleeps occurred (one between each
pair of consecutive attempts, none after the last). -/
theorem performHealthCheckWithRetry_spec_witness :
    (performHealthCheckWithRetry epFailThen200 3).attempts = 2 ∧
    (performHealthCheckWithRetry epFailThen200 3).result =
      performHealthCheck (epFailThen200 1) ∧
    (performHealthCheckWithRetry ep500 2).attempts = 3 ∧
    (performHealthCheckWithRetry ep500 2).result =
      performHealthCheck (ep500 2) ∧
    (performHealthCheckWithRetry ep500 2).delays + 1 =
      (performHealthCheckWithRetry ep500 2).attempts := by
  refine ⟨?_, ?_, ?_, ?_, ?_⟩
  · exact ((performHealthCheckWithRetry_spec epFailThen200 3).2.2.1 1
      (by decide) (by decide) (by decide)).1
  · exact ((performHealthCheckWithRetry_spec epFailThen200 3).2.2.1 1
      (by decide) (by decide) (by decide)).2
  · exact ((performHealthCheckWithRetry_spec ep500 2).2.2.2 (by decide)).1
  · exact ((performHealthCheckWithRetry_spec ep500 2).2.2.2 (by decide)).2
  · exact (performHealthCheckWithRetry_spec ep500 2).2.1

/-- C2 counterexample. A probe that receives HTTP 200 with a body that
explicitly signals "unhealthy" is classified degraded by the code
(determineHealthStatus maps both body signals to degraded), while the
claim asserts the signaled unhealthy status is honored. -/
theorem determineHealthStatus_body_unhealthy_cex :
    (performHealthCheck
        (ProbeOutcome.response 200 (some "unhealthy"))).status =
      HealthStatus.degraded ∧
    claimedProbeStatus (ProbeOutcome.response 200 (some "unhealthy")) =
      HealthStatus.unhealthy ∧
    HealthStatus.degraded ≠ HealthStatus.unhealthy := by
  refine ⟨rfl, rfl, by decide⟩

/-- C2 amended. For every single probe, the status of the returned result
is: healthy for a received 2xx whose body signals neither degraded nor
unhealthy; degraded for a received 2xx whose body signals degraded or
unhealthy (the signaled unhealthy is mapped to degraded, not honored);
unhealthy for a received status of at least 500; degraded for every other
received status; and unhealthy for every failed request, whatever
httpStatusCode the error carried. -/
theorem performHealthCheck_classification_amended (o : ProbeOutcome) :
    (performHealthCheck o).status = amendedProbeStatus o := by
  cases o with
  | response c b =>
      simp only [performHealthCheck, amendedProbeStatus, receivedResponse,
        bodySignal, determineHealthStatus, if_true]
  | failure k => rfl

/-- A try/catch whose handler swallows the error and returns () always
yields a normal return. -/
theorem tryCatch_pure_unit_fst (m : LogOp Unit) (fs : LogFS) :
    (LogOp.tryCatch m (fun _ => LogOp.pure ()) fs).1 = Except.ok () := by
  unfold LogOp.tryCatch
  rcases h : m fs with ⟨r, fs'⟩
  cases r with
  | ok a => cases a; rfl
  | error e => rfl

/-- A try/catch whose handler swallows the error and returns the empty
list always yields a normal return. -/
theorem tryCatch_pure_list_fst (m : LogOp (List String)) (fs : LogFS) :
    ∃ v, (LogOp.tryCatch m (fun _ => LogOp.pure ([] : List String)) fs).1 =
      Except.ok v := by
  unfold LogOp.tryCatch
  rcases h : m fs with ⟨r, fs'⟩
  cases r with
  | ok v => exact ⟨v, rfl⟩
  | error e => exact ⟨[], rfl⟩

/-- C3 counterexample. On a file system where removing the active log
file raises an I/O error, HealthLogger.clearLogs propagates the exception
to its caller (its catch block reports and then rethrows), so the claim
that no public logger operation ever propagates is false. -/
theorem clearLogs_propagates_cex :
    (clearLogs demoLoggerCfg clearCexFS).1 = Except.error "EIO" ∧
    ∀ a, (clearLogs demoLoggerCfg clearCexFS).1 ≠ Except.ok a := by
  refine ⟨rfl, ?_⟩
  intro a h
  rw [show (clearLogs demoLoggerCfg clearCexFS).1 = Except.error "EIO"
    from rfl] at h
  exact Except.noConfusion h

/-- C3 amended. Every public logger operation except clearLogs returns
normally on every file-system state, whatever I/O errors arise inside:
logHealthCheck (append plus rotation check), getRecentLogs and getLogStats
all catch their errors; only clearLogs reports and then rethrows. -/
theorem healthLogger_no_throw_amended (cfg : LoggerConfig) (line : String)
    (limit : Nat) (fs : LogFS) :
    (logHealthCheck cfg line fs).1 = Except.ok () ∧
    (∃ logs, (getRecentLogs cfg limit fs).1 = Except.ok logs) ∧
    (∃ st, (getLogStats cfg fs).1 = Except.ok st) := by
  refine ⟨tryCatch_pure_unit_fst _ fs, tryCatch_pure_list_fst _ fs, ?_⟩
  unfold getLogStats
  by_cases ha : activeExists fs = true
  · simp only [ha, if_true]
    rcases h : statActiveSize fs with ⟨r, fs'⟩
    cases r with
    | ok n => exact ⟨(n, 1 + countGens fs' cfg.maxFiles), rfl⟩
    | error e => exact ⟨(0, 0), rfl⟩
  · simp only [ha, if_false]
    exact ⟨(0, countGens fs cfg.maxFiles), rfl⟩

/-- C4 counterexample. With maxFiles = 3, rotating a state that holds
generations 1 ("a") and 2 ("b") plus an active file ("c") deletes
generation 2 outright — its content "b" survives on no generation file and
generation 3 is never created — whereas the claim's rotation would shift
it to generation 3 and retain it. -/
theorem rotateLogs_generation_cex :
    (rotateLogs 3 rotateCexFS).2.gens = [(1, "c"), (2, "a")] ∧
    lookupGen (rotateLogs 3 rotateCexFS).2 3 = none ∧
    lookupGen (claimedRotate 3 rotateCexFS) 3 = some "b" ∧
    "b" ∉ ((rotateLogs 3 rotateCexFS).2.gens.map Prod.snd) := by
  refine ⟨rfl, rfl, rfl, by decide⟩

/-- Well-formedness only depends on the generation files. -/
theorem gensWF_of_gens_eq {N : Nat} {fs fs' : LogFS}
    (h : fs'.gens = fs.gens) (hwf : gensWF N fs) : gensWF N fs' := by
  unfold gensWF at hwf ⊢
  rw [h]
  exact hwf

theorem preservesWF_pure (N : Nat) (a : α) :
    PreservesWF N (LogOp.pure a) := fun _ h => h

theorem preservesWF_throw (N : Nat) (e : String) :
    PreservesWF N (LogOp.throw e : LogOp α) := fun _ h => h

theorem preservesWF_bind {N : Nat} {m : LogOp α} {f : α → LogOp β}
    (hm : PreservesWF N m) (hf : ∀ a, PreservesWF N (f a)) :
    PreservesWF N (LogOp.bind m f) := by
  intro fs h
  unfold LogOp.bind
  rcases hms : m fs with ⟨r, fs'⟩
  have hfs' : gensWF N fs' := by
    have := hm fs h
    rw [hms] at this
    exact this
  cases r with
  | ok a => exact hf a fs' hfs'
  | error e => exact hfs'

theorem preservesWF_tryCatch {N : Nat} {m : LogOp α}
    {h : String → LogOp α} (hm : PreservesWF N m)
    (hh : ∀ e, PreservesWF N (h e)) :
    PreservesWF N (LogOp.tryCatch m h) := by
  intro fs hwf
  unfold LogOp.tryCatch
  rcases hms : m fs with ⟨r, fs'⟩
  have hfs' : gensWF N fs' := by
    have := hm fs hwf
    rw [hms] at this
    exact this
  cases r with
  | ok a => exact hfs'
  | error e => exact hh e fs' hfs'

theorem appendActive_gens (line : String) (fs : LogFS) :
    ((appendActive line) fs).2.gens = fs.gens := by
  unfold appendActive
  split <;> rfl

theorem statActiveSize_snd (fs : LogFS) : (statActiveSize fs).2 = fs := by
  unfold statActiveSize
  split
  · rfl
  · cases fs.active <;> rfl

theorem readActive_snd (fs : LogFS) : (readActive fs).2 = fs := by
  unfold readActive
  split
  · rfl
  · cases fs.active <;> rfl

theorem unlinkActive_gens (fs : LogFS) :
    ((unlinkActive) fs).2.gens = fs.gens := by
  unfold unlinkActive
  split <;> rfl

theorem preservesWF_unlinkGen (N : Nat) (i : Nat) :
    PreservesWF N (unlinkGen i) := by
  intro fs hwf
  unfold unlinkGen
  split
  · exact hwf
  · rcases hwf with ⟨hnd, hbd⟩
    constructor
    · exact ((List.filter_sublist _).map Prod.fst).nodup hnd
    · intro p hp
      exact hbd p (List.mem_of_mem_filter hp)

theorem preservesWF_renameGen {N : Nat} (i j : Nat) (h1 : 1 ≤ j)
    (h2 : j + 1 ≤ N) : PreservesWF N (renameGen i j) := by
  intro fs hwf
  unfold renameGen
  split
  · exact hwf
  · rcases hlk : lookupGen fs i with _ | c
    · exact hwf
    · rcases hwf with ⟨hnd, hbd⟩
      refine ⟨?_, ?_⟩
      · refine List.nodup_cons.2 ⟨?_, ?_⟩
        · intro hj
          rcases List.mem_map.1 hj with ⟨p, hp, hpj⟩
          have := List.of_mem_filter hp
          simp only [decide_eq_true_eq, hpj] at this
          exact this.2 rfl
        · exact ((List.filter_sublist _).map Prod.fst).nodup hnd
      · intro p hp
        rcases List.mem_cons.1 hp with h | h
        · rw [h]
          exact ⟨h1, h2⟩
        · exact hbd p (List.mem_of_mem_filter h)

theorem preservesWF_renameActiveToGen1 {N : Nat} (hN : 2 ≤ N) :
    PreservesWF N renameActiveToGen1 := by
  intro fs hwf
  unfold renameActiveToGen1
  split
  · exact hwf
  · rcases hact : fs.active with _ | c
    · exact hwf
    · rcases hwf with ⟨hnd, hbd⟩
      refine ⟨?_, ?_⟩
      · refine List.nodup_cons.2 ⟨?_, ?_⟩
        · intro hj
          rcases List.mem_map.1 hj with ⟨p, hp, hpj⟩
          have := List.of_mem_filter hp
          simp only [decide_eq_true_eq, hpj] at this
          exact this rfl
        · exact ((List.filter_sublist _).map Prod.fst).nodup hnd
      · intro p hp
        rcases List.mem_cons.1 hp with h | h
        · rw [h]
          exact ⟨Nat.le_refl 1, hN⟩
        · exact hbd p (List.mem_of_mem_filter h)

theorem preservesWF_statActiveSize (N : Nat) :
    PreservesWF N statActiveSize := by
  intro fs h
  rw [statActiveSize_snd]
  exact h

theorem preservesWF_readActive (N : Nat) :
    PreservesWF N readActive := by
  intro fs h
  rw [readActive_snd]
  exact h

theorem preservesWF_rotateShift (N : Nat) :
    ∀ k, k < N → PreservesWF N (rotateShift N k) := by
  intro k
  induction k with
  | zero => intro _; exact preservesWF_pure N ()
  | succ i ih =>
      intro hk
      have hstep : PreservesWF N (fun fs =>
          if genExists fs (i + 1) then
            (if i + 1 = N - 1 then unlinkGen (i + 1)
             else renameGen (i + 1) (i + 2)) fs
          else (Except.ok (), fs)) := by
        intro fs hwf
        by_cases hex : genExists fs (i + 1)
        · simp only [hex, if_true]
          by_cases heq : i + 1 = N - 1
          · simp only [heq, if_true]
            exact preservesWF_unlinkGen N (N - 1) fs hwf
          · simp only [heq, if_false]
            refine preservesWF_renameGen (i + 1) (i + 2) (by omega)
              (by omega) fs hwf
        · simp only [hex, if_false]
          exact hwf
      have := preservesWF_bind hstep (fun _ => ih (by omega))
      simpa [rotateShift] using this

theorem preservesWF_rotateLogs {N : Nat} (hN : 2 ≤ N) :
    PreservesWF N (rotateLogs N) := by
  have hmove : PreservesWF N (fun fs =>
      if activeExists fs then renameActiveToGen1 fs
      else (Except.ok (), fs)) := by
    intro fs hwf
    by_cases ha : activeExists fs
    · simp only [ha, if_true]
      exact preservesWF_renameActiveToGen1 hN fs hwf
    · simp only [ha, if_false]
      exact hwf
  have := preservesWF_bind
    (preservesWF_rotateShift N (N - 1) (by omega)) (fun _ => hmove)
  simpa [rotateLogs] using this

theorem preservesWF_rotateLogsIfNeeded {cfg : LoggerConfig}
    (hN : 2 ≤ cfg.maxFiles) : PreservesWF cfg.maxFiles
      (rotateLogsIfNeeded cfg) := by
  refine preservesWF_tryCatch
    (preservesWF_bind (preservesWF_statActiveSize _) ?_)
    (fun e => preservesWF_pure _ ())
  intro size
  by_cases hc : cfg.maxFileSize ≤ size
  · simp only [hc, if_true]
    exact preservesWF_rotateLogs hN
  · simp only [hc, if_false]
    exact preservesWF_pure _ ()

theorem preservesWF_logHealthCheck {cfg : LoggerConfig}
    (hN : 2 ≤ cfg.maxFiles) (line : String) :
    PreservesWF cfg.maxFiles (logHealthCheck cfg line) := by
  refine preservesWF_tryCatch
    (preservesWF_bind ?_ (fun _ => preservesWF_rotateLogsIfNeeded hN))
    (fun e => preservesWF_pure _ ())
  intro fs h
  exact gensWF_of_gens_eq (appendActive_gens line fs) h

theorem preservesWF_clearGens (N maxFiles : Nat) :
    ∀ j, PreservesWF N (clearGens maxFiles j) := by
  intro j
  induction j with
  | zero => exact preservesWF_pure N ()
  | succ i ih =>
      have hstep : PreservesWF N (fun fs =>
          if genExists fs (maxFiles - i) then unlinkGen (maxFiles - i) fs
          else (Except.ok (), fs)) := by
        intro fs hwf
        by_cases hex : genExists fs (maxFiles - i)
        · simp only [hex, if_true]
          exact preservesWF_unlinkGen N _ fs hwf
        · simp only [hex, if_false]
          exact hwf
      have := preservesWF_bind hstep (fun _ => ih)
      simpa [clearGens] using this

theorem preservesWF_clearLogs (N : Nat) (cfg : LoggerConfig) :
    PreservesWF N (clearLogs cfg) := by
  refine preservesWF_tryCatch
    (preservesWF_bind ?_ (fun _ => preservesWF_clearGens N _ _))
    (fun e => preservesWF_throw N e)
  intro fs h
  by_cases ha : activeExists fs
  · simp only [ha, if_true]
    exact gensWF_of_gens_eq (unlinkActive_gens fs) h
  · simp only [ha, if_false]
    exact h

theorem preservesWF_getRecentLogs (N : Nat) (cfg : LoggerConfig)
    (limit : Nat) : PreservesWF N (getRecentLogs cfg limit) := by
  refine preservesWF_tryCatch ?_ (fun e => preservesWF_pure _ _)
  intro fs h
  by_cases ha : activeExists fs
  · simp only [ha, if_true]
    refine preservesWF_bind (preservesWF_readActive N) ?_ fs h
    intro content
    cases cfg.format <;> exact preservesWF_pure _ _
  · simp only [ha, if_false]
    exact h

theorem getLogStats_snd (cfg : LoggerConfig) (fs : LogFS) :
    (getLogStats cfg fs).2 = fs := by
  unfold getLogStats
  by_cases ha : activeExists fs
  · simp only [ha, if_true]
    rcases h : statActiveSize fs with ⟨r, fs'⟩
    have : fs' = fs := by
      have := statActiveSize_snd fs
      rw [h] at this
      exact this
    cases r <;> simp [this]
  · simp [ha]

theorem runLogger_preserves_wf (cfg : LoggerConfig)
    (hN : 2 ≤ cfg.maxFiles) (evs : List LoggerEvent) :
    ∀ fs, gensWF cfg.maxFiles fs →
      gensWF cfg.maxFiles (runLogger cfg evs fs) := by
  induction evs with
  | nil => intro fs h; exact h
  | cons e rest ih =>
      intro fs h
      have hstep : gensWF cfg.maxFiles
          (match e with
            | LoggerEvent.append line => (logHealthCheck cfg line fs).2
            | LoggerEvent.readRecent limit => (getRecentLogs cfg limit fs).2
            | LoggerEvent.stats => (getLogStats cfg fs).2
            | LoggerEvent.clear => (clearLogs cfg fs).2) := by
        cases e with
        | append line => exact preservesWF_logHealthCheck hN line fs h
        | readRecent limit => exact preservesWF_getRecentLogs _ cfg limit fs h
        | stats => rw [getLogStats_snd]; exact h
        | clear => exact preservesWF_clearLogs _ cfg fs h
      exact ih _ hstep

theorem gensWF_length {N : Nat} {fs : LogFS} (hN : 1 ≤ N)
    (h : gensWF N fs) : fs.gens.length + 1 ≤ N := by
  rcases h with ⟨hnd, hbd⟩
  have hsub : (fs.gens.map Prod.fst).toFinset ⊆ Finset.Icc 1 (N - 1) := by
    intro x hx
    rcases List.mem_map.1 (List.mem_toFinset.1 hx) with ⟨p, hp, hpx⟩
    have := hbd p hp
    rw [Finset.mem_Icc]
    omega
  have hcard := Finset.card_le_card hsub
  rw [List.toFinset_card_of_nodup hnd, Nat.card_Icc] at hcard
  have hlen : (fs.gens.map Prod.fst).length = fs.gens.length :=
    List.length_map _ _
  omega

/-- find? of a key filtered association list: filtering on a key
predicate commutes with keyed search. -/
theorem find?_filter_key (q : Nat → Bool) (j : Nat) :
    ∀ l : List (Nat × String),
      (l.filter (fun p => q p.1)).find? (fun p => p.1 = j) =
        if q j then l.find? (fun p => p.1 = j) else none := by
  intro l
  induction l with
  | nil => simp
  | cons a t ih =>
      by_cases hq : q a.1
      · by_cases ha : a.1 = j
        · subst ha
          simp [List.filter_cons, hq, List.find?]
        · simp only [List.filter_cons, hq, if_true]
          rw [List.find?_cons_of_neg _ (by simpa using ha), ih,
            List.find?_cons_of_neg _ (by simpa using ha)]
      · by_cases ha : a.1 = j
        · subst ha
          rw [List.filter_cons_of_neg (by simpa using hq), ih]
          simp [hq]
        · rw [List.filter_cons_of_neg (by simpa using hq), ih,
            List.find?_cons_of_neg _ (by simpa using ha)]

/-- Effect of unlinkGen on lookups, when no failure is injected. -/
theorem unlinkGen_spec (i : Nat) (fs : LogFS) (hnf : noFail fs) :
    (unlinkGen i fs).1 = Except.ok () ∧
    (unlinkGen i fs).2.active = fs.active ∧
    noFail (unlinkGen i fs).2 ∧
    ∀ j, lookupGen (unlinkGen i fs).2 j =
      if j = i then none else lookupGen fs j := by
  have hni : i ∉ fs.failGens := by
    rw [hnf.2]
    exact List.not_mem_nil i
  unfold unlinkGen
  rw [if_neg hni]
  refine ⟨rfl, rfl, ⟨hnf.1, hnf.2⟩, ?_⟩
  intro j
  unfold lookupGen
  simp only
  rw [find?_filter_key (fun x => decide (x ≠ i)) j]
  by_cases hj : j = i
  · simp [hj]
  · simp [hj]

/-- Effect of renameGen on lookups, when no failure is injected and the
source generation exists. -/
theorem renameGen_spec (i j : Nat) (c : String) (fs : LogFS)
    (hnf : noFail fs) (hc : lookupGen fs i = some c) :
    (renameGen i j fs).1 = Except.ok () ∧
    (renameGen i j fs).2.active = fs.active ∧
    noFail (renameGen i j fs).2 ∧
    ∀ t, lookupGen (renameGen i j fs).2 t =
      if t = j then some c else if t = i then none else lookupGen fs t := by
  have hni : ¬ (i ∈ fs.failGens ∨ j ∈ fs.failGens) := by
    rw [hnf.2]
    simp
  unfold renameGen
  rw [if_neg hni, hc]
  refine ⟨rfl, rfl, ⟨hnf.1, hnf.2⟩, ?_⟩
  intro t
  unfold lookupGen
  simp only
  by_cases htj : t = j
  · subst htj
    rw [List.find?_cons_of_pos _ (by simp)]
    simp
  · rw [List.find?_cons_of_neg _ (by simpa using fun h => htj h.symm)]
    rw [find?_filter_key (fun x => decide (x ≠ i ∧ x ≠ j)) t]
    by_cases hti : t = i
    · have hij : ¬ i = j := fun h => htj (by rw [hti, h])
      simp [hti, hij]
    · simp [hti, htj]

/-- Effect of renameActiveToGen1 on lookups, when no failure is injected
and the active file exists. -/
theorem renameActiveToGen1_spec (c : String) (fs : LogFS)
    (hnf : noFail fs) (hc : fs.active = some c) :
    (renameActiveToGen1 fs).1 = Except.ok () ∧
    (renameActiveToGen1 fs).2.active = none ∧
    noFail (renameActiveToGen1 fs).2 ∧
    ∀ t, lookupGen (renameActiveToGen1 fs).2 t =
      if t = 1 then some c else lookupGen fs t := by
  have hni : ¬ (fs.failActive = true ∨ 1 ∈ fs.failGens) := by
    rw [hnf.1, hnf.2]
    simp
  unfold renameActiveToGen1
  rw [if_neg hni, hc]
  refine ⟨rfl, rfl, ⟨hnf.1, hnf.2⟩, ?_⟩
  intro t
  unfold lookupGen
  simp only
  by_cases ht1 : t = 1
  · subst ht1
    rw [List.find?_cons_of_pos _ (by simp)]
    simp
  · rw [List.find?_cons_of_neg _ (by simpa using fun h => ht1 h.symm)]
    rw [find?_filter_key (fun x => decide (x ≠ 1)) t]
    simp [ht1]

/-- Characterization of the shift loop rotateShift N k on a failure-free
state in which generation k + 1 is absent (as it always is when the loop
is entered after the deletion step): the loop succeeds, leaves the active
file alone, shifts generations 1..k up by one index and vacates
generation 1. -/
theorem rotateShift_spec (N : Nat) :
    ∀ k, k + 1 ≤ N - 1 →
    ∀ fs, noFail fs → lookupGen fs (k + 1) = none →
      (rotateShift N k fs).1 = Except.ok () ∧
      noFail (rotateShift N k fs).2 ∧
      (rotateShift N k fs).2.active = fs.active ∧
      ∀ j, lookupGen (rotateShift N k fs).2 j =
        if 2 ≤ j ∧ j ≤ k + 1 then lookupGen fs (j - 1)
        else if j = 1 ∧ 1 ≤ k then none
        else lookupGen fs j := by
  intro k
  induction k with
  | zero =>
      intro _ fs hnf _
      refine ⟨rfl, hnf, rfl, ?_⟩
      intro j
      have h1 : ¬ (2 ≤ j ∧ j ≤ 0 + 1) := by omega
      have h2 : ¬ (j = 1 ∧ 1 ≤ 0) := by omega
      simp [rotateShift, LogOp.pure, h1, h2]
  | succ k ih =>
      intro hk fs hnf hpre
      have hv_ne : ¬ (k + 1 = N - 1) := by omega
      by_cases hex : genExists fs (k + 1) = true
      · obtain ⟨c, hc⟩ : ∃ c, lookupGen fs (k + 1) = some c := by
          simpa [genExists, Option.isSome_iff_exists] using hex
        have hrg := renameGen_spec (k + 1) (k + 2) c fs hnf hc
        have heq : renameGen (k + 1) (k + 2) fs =
            (Except.ok (), (renameGen (k + 1) (k + 2) fs).2) := by
          rw [← hrg.1]
        have hred : rotateShift N (k + 1) fs =
            rotateShift N k (renameGen (k + 1) (k + 2) fs).2 := by
          simp only [rotateShift, LogOp.bind]
          rw [if_pos hex, if_neg hv_ne, heq]
        have hpre1 : lookupGen (renameGen (k + 1) (k + 2) fs).2 (k + 1) =
            none := by
          rw [hrg.2.2.2 (k + 1), if_neg (by omega), if_pos rfl]
        have hih := ih (by omega) (renameGen (k + 1) (k + 2) fs).2
          hrg.2.2.1 hpre1
        rw [hred]
        refine ⟨hih.1, hih.2.1, ?_, ?_⟩
        · rw [hih.2.2.1, hrg.2.1]
        · intro j
          rw [hih.2.2.2 j, hrg.2.2.2 (j - 1), hrg.2.2.2 j]
          split_ifs <;>
            first
              | rfl
              | omega
              | (rw [show j - 1 = k + 1 from by omega]
                 exact hc.symm)
      · have hnone : lookupGen fs (k + 1) = none := by
          simpa [genExists, Option.not_isSome_iff_eq_none] using hex
        have hred : rotateShift N (k + 1) fs = rotateShift N k fs := by
          simp only [rotateShift, LogOp.bind]
          rw [if_neg hex]
        have hih := ih (by omega) fs hnf hnone
        rw [hred]
        refine ⟨hih.1, hih.2.1, hih.2.2.1, ?_⟩
        intro j
        rw [hih.2.2.2 j]
        split_ifs <;>
          first
            | rfl
            | omega
            | (rw [show j = k + 1 + 1 from by omega,
                show k + 1 + 1 - 1 = k + 1 from by omega, hpre, hnone])
            | (rw [show j = k + 1 from by omega, hnone])

/-- A generation index at or beyond the bound is absent. -/
theorem lookupGen_none_of_bound {fs : LogFS} {N : Nat}
    (hbd : ∀ p ∈ fs.gens, 1 ≤ p.1 ∧ p.1 + 1 ≤ N) {j : Nat} (hj : N ≤ j) :
    lookupGen fs j = none := by
  unfold lookupGen
  rcases h : fs.gens.find? (fun p => p.1 = j) with _ | p
  · rw [h]
    rfl
  · have hmem := List.mem_of_find?_eq_some h
    have hkey := List.find?_some h
    simp only [decide_eq_true_eq] at hkey
    have := hbd p hmem
    omega

/-- Characterization of the whole shift loop as rotateLogs enters it
(loop variable starting at maxFiles - 1, here with maxFiles = M + 2):
the oldest kept generation M + 1 is deleted, generations 1..M move up by
one, generation 1 is vacated, everything else is untouched. -/
theorem rotateShiftFull_spec (M : Nat) (fs : LogFS) (hnf : noFail fs) :
    (rotateShift (M + 2) (M + 1) fs).1 = Except.ok () ∧
    noFail (rotateShift (M + 2) (M + 1) fs).2 ∧
    (rotateShift (M + 2) (M + 1) fs).2.active = fs.active ∧
    ∀ j, lookupGen (rotateShift (M + 2) (M + 1) fs).2 j =
      if 2 ≤ j ∧ j ≤ M + 1 then lookupGen fs (j - 1)
      else if j = 1 then none
      else lookupGen fs j := by
  have hv_eq : M + 1 = (M + 2) - 1 := by omega
  by_cases hex : genExists fs (M + 1) = true
  · have hug := unlinkGen_spec (M + 1) fs hnf
    have heq : unlinkGen (M + 1) fs =
        (Except.ok (), (unlinkGen (M + 1) fs).2) := by
      rw [← hug.1]
    have hred : rotateShift (M + 2) (M + 1) fs =
        rotateShift (M + 2) M (unlinkGen (M + 1) fs).2 := by
      simp only [rotateShift, LogOp.bind]
      rw [if_pos hex, if_pos hv_eq, heq]
    have hpre1 : lookupGen (unlinkGen (M + 1) fs).2 (M + 1) = none := by
      rw [hug.2.2.2 (M + 1), if_pos rfl]
    have hsp := rotateShift_spec (M + 2) M (by omega)
      (unlinkGen (M + 1) fs).2 hug.2.2.1 hpre1
    rw [hred]
    refine ⟨hsp.1, hsp.2.1, ?_, ?_⟩
    · rw [hsp.2.2.1, hug.2.1]
    · intro j
      rw [hsp.2.2.2 j, hug.2.2.2 (j - 1), hug.2.2.2 j]
      split_ifs <;> first | rfl | omega
  · have hnone : lookupGen fs (M + 1) = none := by
      simpa [genExists, Option.not_isSome_iff_eq_none] using hex
    have hred : rotateShift (M + 2) (M + 1) fs =
        rotateShift (M + 2) M fs := by
      simp only [rotateShift, LogOp.bind]
      rw [if_neg hex]
    have hsp := rotateShift_spec (M + 2) M (by omega) fs hnf hnone
    rw [hred]
    refine ⟨hsp.1, hsp.2.1, hsp.2.2.1, ?_⟩
    intro j
    rw [hsp.2.2.2 j]
    split_ifs <;>
      first
        | rfl
        | omega
        | (rw [show j = M + 1 from by omega, hnone])

/-- Full characterization of one rotation on a failure-free well-formed
state: it succeeds, the active file disappears and its content shows up
as generation 1, generations 1..maxFiles - 2 move up by one index,
generation maxFiles - 1 is deleted, and no generation at index maxFiles or
beyond ever exists. -/
theorem rotateLogs_spec (N : Nat) (hN : 2 ≤ N) (fs : LogFS)
    (hnf : noFail fs)
    (hbd : ∀ p ∈ fs.gens, 1 ≤ p.1 ∧ p.1 + 1 ≤ N) :
    (rotateLogs N fs).1 = Except.ok () ∧
    (rotateLogs N fs).2.active = none ∧
    lookupGen (rotateLogs N fs).2 1 = fs.active ∧
    (∀ j, 2 ≤ j → j + 1 ≤ N →
      lookupGen (rotateLogs N fs).2 j = lookupGen fs (j - 1)) ∧
    (∀ j, N ≤ j → lookupGen (rotateLogs N fs).2 j = none) := by
  obtain ⟨M, rfl⟩ : ∃ M, N = M + 2 := ⟨N - 2, by omega⟩
  have hfull := rotateShiftFull_spec M fs hnf
  set g2 := (rotateShift (M + 2) (M + 1) fs).2 with hg2
  have heq : rotateShift (M + 2) (M + 1) fs = (Except.ok (), g2) := by
    rw [← hfull.1]
  have hred : rotateLogs (M + 2) fs =
      (if activeExists g2 then renameActiveToGen1 g2
       else (Except.ok (), g2)) := by
    simp only [rotateLogs, LogOp.bind]
    rw [show M + 2 - 1 = M + 1 from by omega, heq]
  cases hact : fs.active with
  | some c =>
      have hacg : activeExists g2 = true := by
        unfold activeExists
        rw [hfull.2.2.1, hact]
        rfl
      have hra := renameActiveToGen1_spec c g2 hfull.2.1
        (by rw [hfull.2.2.1, hact])
      rw [hred, if_pos hacg]
      refine ⟨hra.1, hra.2.1, ?_, ?_, ?_⟩
      · rw [hra.2.2.2 1, if_pos rfl]
      · intro j h2 hj
        rw [hra.2.2.2 j, if_neg (by omega), hfull.2.2.2 j,
          if_pos ⟨h2, by omega⟩]
      · intro j hj
        rw [hra.2.2.2 j, if_neg (by omega), hfull.2.2.2 j,
          if_neg (by omega), if_neg (by omega)]
        exact lookupGen_none_of_bound hbd (by omega)
  | none =>
      have hacg : ¬ (activeExists g2 = true) := by
        unfold activeExists
        rw [hfull.2.2.1, hact]
        simp
      rw [hred, if_neg hacg]
      refine ⟨rfl, ?_, ?_, ?_, ?_⟩
      · show g2.active = none
        rw [hfull.2.2.1, hact]
      · rw [hfull.2.2.2 1, if_neg (by omega), if_pos rfl]
      · intro j h2 hj
        rw [hfull.2.2.2 j, if_pos ⟨h2, by omega⟩]
      · intro j hj
        rw [hfull.2.2.2 j, if_neg (by omega), if_neg (by omega)]
        exact lookupGen_none_of_bound hbd (by omega)

/-- C4 amended. For every configured ceiling maxFiles = N ≥ 2: (a) after
any sequence of logger operations starting from an empty file system, at
most N - 1 rotated generation files (indices 1..N-1) plus the active file
exist on disk; (b) each rotation on a failure-free well-formed state moves
the previously-active file to generation 1, shifts generations 1..N-2 up
by one suffix index, deletes generation N - 1 (the oldest kept index,
which is within the claimed retention of N), and never creates generation
N or beyond. -/
theorem rotateLogs_retention_amended (cfg : LoggerConfig)
    (hN : 2 ≤ cfg.maxFiles) :
    (∀ evs : List LoggerEvent,
      (∀ p ∈ (runLogger cfg evs emptyLogFS).gens,
        1 ≤ p.1 ∧ p.1 + 1 ≤ cfg.maxFiles) ∧
      (runLogger cfg evs emptyLogFS).gens.length + 1 ≤ cfg.maxFiles) ∧
    (∀ fs : LogFS, noFail fs → gensWF cfg.maxFiles fs →
      (rotateLogs cfg.maxFiles fs).1 = Except.ok () ∧
      (rotateLogs cfg.maxFiles fs).2.active = none ∧
      lookupGen (rotateLogs cfg.maxFiles fs).2 1 = fs.active ∧
      (∀ j, 2 ≤ j → j + 1 ≤ cfg.maxFiles →
        lookupGen (rotateLogs cfg.maxFiles fs).2 j = lookupGen fs (j - 1)) ∧
      (∀ j, cfg.maxFiles ≤ j →
        lookupGen (rotateLogs cfg.maxFiles fs).2 j = none)) := by
  constructor
  · intro evs
    have hwf0 : gensWF cfg.maxFiles emptyLogFS :=
      ⟨List.nodup_nil, by simp [emptyLogFS]⟩
    have hwf := runLogger_preserves_wf cfg hN evs emptyLogFS hwf0
    exact ⟨hwf.2, gensWF_length (by omega) hwf⟩
  · intro fs hnf hwf
    exact rotateLogs_spec cfg.maxFiles hN fs hnf hwf.2

/-- Witness for C4's amended theorem at maxFiles = 3: a run of one append
from the empty file system keeps every generation index between 1 and 2
(so at most 2 rotated files plus the active file), and one rotation of the
concrete two-generation state moves the active content to generation 1 and
leaves generation 3 nonexistent. -/
theorem rotateLogs_retention_amended_witness :
    (∀ p ∈ (runLogger demoLoggerCfg [LoggerEvent.append "r1"]
        emptyLogFS).gens, 1 ≤ p.1 ∧ p.1 + 1 ≤ demoLoggerCfg.maxFiles) ∧
    (runLogger demoLoggerCfg [LoggerEvent.append "r1"]
        emptyLogFS).gens.length + 1 ≤ demoLoggerCfg.maxFiles ∧
    lookupGen (rotateLogs demoLoggerCfg.maxFiles rotateCexFS).2 1 =
      rotateCexFS.active ∧
    lookupGen (rotateLogs demoLoggerCfg.maxFiles rotateCexFS).2 3 = none := by
  have h := rotateLogs_retention_amended demoLoggerCfg (by decide)
  have h1 := h.1 [LoggerEvent.append "r1"]
  have h2 := h.2 rotateCexFS ⟨rfl, rfl⟩ ⟨by decide, by decide⟩
  exact ⟨h1.1, h1.2, h2.2.2.1, h2.2.2.2.2 3 (by decide)⟩

namespace CronJobManager

/-- Members of the job map after setJob are the replacement or old
members. -/
theorem mem_setJob {m : CronJobManager} {jobId : String} {j : CronJob}
    {p : String × CronJob} (hp : p ∈ (setJob m jobId j).jobs) :
    p = (jobId, j) ∨ p ∈ m.jobs := by
  rcases List.mem_map.1 hp with ⟨q, hq, hqe⟩
  by_cases h : q.1 = jobId
  · left
    rw [← hqe]
    simp [h]
  · right
    rw [← hqe]
    simp only [h, if_false]
    exact hq

/-- A successful getJob lookup is a member of the job map. -/
theorem getJob_mem {m : CronJobManager} {jobId : String} {j : CronJob}
    (h : getJob m jobId = some j) : (jobId, j) ∈ m.jobs := by
  unfold getJob at h
  rcases hf : m.jobs.find? (fun p => p.1 = jobId) with _ | p
  · rw [hf] at h
    cases h
  · rw [hf] at h
    have hmem := List.mem_of_find?_eq_some hf
    have hkey := List.find?_some hf
    simp only [decide_eq_true_eq] at hkey
    have hval : p.2 = j := by simpa using h
    have hpair : (jobId, j) = p := by
      rw [← hkey, ← hval]
    rw [hpair]
    exact hmem

theorem inv_startJob (now : Nat) (m : CronJobManager) (jobId : String)
    (h : ManagerInv m) : ManagerInv (startJob now m jobId).2 := by
  unfold startJob
  rcases hg : getJob m jobId with _ | j
  · exact h
  · dsimp only
    by_cases hrun : j.status.status = JobState.running
    · rw [if_pos hrun]
      exact h
    · rw [if_neg hrun]
      intro p hp
      rcases mem_setJob hp with hnew | hold
      · have hj := h _ (getJob_mem hg)
        rw [hnew]
        exact ⟨hj.1, hj.2⟩
      · exact h p hold

theorem inv_stopJob (m : CronJobManager) (jobId : String)
    (h : ManagerInv m) : ManagerInv (stopJob m jobId).2 := by
  unfold stopJob
  rcases hg : getJob m jobId with _ | j
  · exact h
  · dsimp only
    intro p hp
    rcases mem_setJob hp with hnew | hold
    · have hj := h _ (getJob_mem hg)
      rw [hnew]
      exact ⟨hj.1, hj.2⟩
    · exact h p hold

theorem inv_restartJob (now : Nat) (m : CronJobManager) (jobId : String)
    (h : ManagerInv m) : ManagerInv (restartJob now m jobId).2 := by
  unfold restartJob
  rcases hg : getJob m jobId with _ | j
  · exact h
  · dsimp only
    have h1 : ManagerInv (stopJob m jobId).2 := inv_stopJob m jobId h
    rcases hg1 : getJob (stopJob m jobId).2 jobId with _ | j1
    · exact h1
    · dsimp only
      refine inv_startJob now _ jobId ?_
      intro p hp
      rcases mem_setJob hp with hnew | hold
      · have hj := h1 _ (getJob_mem hg1)
        rw [hnew]
        exact ⟨Nat.zero_le _, hj.2⟩
      · exact h1 p hold

theorem inv_executeHealthCheckBegin (m : CronJobManager) (jobId : String)
    (h : ManagerInv m) : ManagerInv (executeHealthCheckBegin m jobId) := by
  unfold executeHealthCheckBegin
  rcases hg : getJob m jobId with _ | j
  · exact h
  · dsimp only
    intro p hp
    rcases mem_setJob hp with hnew | hold
    · have hj1 : j.status.errorCount ≤ j.completions :=
        (h _ (getJob_mem hg)).1
      have hj2 : j.status.runCount = j.completions + j.inProgress :=
        (h _ (getJob_mem hg)).2
      rw [hnew]
      refine ⟨?_, ?_⟩
      · show j.status.errorCount ≤ j.completions
        exact hj1
      · show j.status.runCount + 1 = j.completions + (j.inProgress + 1)
        omega
    · exact h p hold

theorem inv_executeHealthCheckEnd (now : Nat) (m : CronJobManager)
    (jobId : String) (outcome : Option String) (h : ManagerInv m) :
    ManagerInv (executeHealthCheckEnd now m jobId outcome) := by
  unfold executeHealthCheckEnd
  rcases hg : getJob m jobId with _ | j
  · exact h
  · dsimp only
    by_cases hz : j.inProgress = 0
    · rw [if_pos hz]
      exact h
    · rw [if_neg hz]
      have hj1 : j.status.errorCount ≤ j.completions :=
        (h _ (getJob_mem hg)).1
      have hj2 : j.status.runCount = j.completions + j.inProgress :=
        (h _ (getJob_mem hg)).2
      cases outcome with
      | none =>
          intro p hp
          rcases mem_setJob hp with hnew | hold
          · rw [hnew]
            refine ⟨?_, ?_⟩
            · show j.status.errorCount ≤ j.completions + 1
              omega
            · show j.status.runCount =
                j.completions + 1 + (j.inProgress - 1)
              omega
          · exact h p hold
      | some e =>
          intro p hp
          rcases mem_setJob hp with hnew | hold
          · rw [hnew]
            refine ⟨?_, ?_⟩
            · show j.status.errorCount + 1 ≤ j.completions + 1
              omega
            · show j.status.runCount =
                j.completions + 1 + (j.inProgress - 1)
              omega
          · exact h p hold

theorem inv_createHealthMonitoringJob (cronValidate : String → Bool)
    (now : Nat) (m : CronJobManager) (config : CronJobConfig)
    (h : ManagerInv m) :
    ManagerInv (createHealthMonitoringJob cronValidate now m config) := by
  unfold createHealthMonitoringJob
  by_cases hdup : (getJob m "health-monitoring").isSome = true
  · rw [if_pos hdup]
    exact h
  · rw [if_neg hdup]
    by_cases hval : ¬ cronValidate config.schedule = true
    · rw [if_pos hval]
      exact h
    · rw [if_neg hval]
      dsimp only
      have hbase : ManagerInv
          { jobs := m.jobs ++
              [("health-monitoring",
                { config := config,
                  status :=
                    { id := "health-monitoring",
                      name := "Health Monitoring",
                      schedule := config.schedule,
                      enabled := config.enabled,
                      lastRun := none, nextRun := none,
                      status := JobState.stopped, runCount := 0,
                      errorCount := 0, lastError := none },
                  inProgress := 0, completions := 0 })] } := by
        intro p hp
        rcases List.mem_append.1 hp with hold | hnew
        · exact h p hold
        · rw [List.mem_singleton.1 hnew]
          exact ⟨Nat.le_refl 0, rfl⟩
      by_cases hen : config.enabled = true
      · rw [if_pos hen]
        exact inv_startJob now _ "health-monitoring" hbase
      · rw [if_neg hen]
        exact hbase

theorem inv_removeJob (m : CronJobManager) (jobId : String)
    (h : ManagerInv m) : ManagerInv (removeJob m jobId).2 := by
  unfold removeJob
  rcases hg : getJob m jobId with _ | j
  · exact h
  · dsimp only
    intro p hp
    exact h p (List.mem_of_mem_filter hp)

theorem inv_sweepStep (now : Nat) (acc : CronJobManager × SweepCounts)
    (jobId : String) (h : ManagerInv acc.1) :
    ManagerInv (sweepStep now acc jobId).1 := by
  rcases acc with ⟨m, c⟩
  unfold sweepStep
  dsimp only at h ⊢
  rcases hg : getJob m jobId with _ | j
  · exact h
  · dsimp only
    by_cases herr : j.status.status = JobState.error
    · rw [if_pos herr]
      by_cases hec : j.status.errorCount < 5
      · rw [if_pos hec]
        have hr := inv_restartJob now m jobId h
        rcases hrr : restartJob now m jobId with ⟨r, m1⟩
        have hm1 : ManagerInv m1 := by
          rw [hrr] at hr
          exact hr
        rcases r with e | b
        · exact hm1
        · cases b
          · exact hm1
          · exact hm1
      · rw [if_neg hec]
        exact h
    · rw [if_neg herr]
      by_cases hst : j.status.status = JobState.stopped ∧
          j.status.enabled = true
      · rw [if_pos hst]
        exact h
      · rw [if_neg hst]
        exact h

theorem inv_sweep_fold (now : Nat) :
    ∀ (ids : List String) (acc : CronJobManager × SweepCounts),
      ManagerInv acc.1 → ManagerInv (ids.foldl (sweepStep now) acc).1 := by
  intro ids
  induction ids with
  | nil =>
      intro acc h
      exact h
  | cons a t ih =>
      intro acc h
      exact ih _ (inv_sweepStep now acc a h)

theorem inv_performHealthCheckSweep (now : Nat) (m : CronJobManager)
    (h : ManagerInv m) : ManagerInv (performHealthCheckSweep now m).1 := by
  unfold performHealthCheckSweep
  exact inv_sweep_fold now _ _ h

theorem inv_step (cronValidate : String → Bool) (m : CronJobManager)
    (e : SchedulerEvent) (h : ManagerInv m) :
    ManagerInv (step cronValidate m e) := by
  cases e with
  | create config => exact inv_createHealthMonitoringJob _ 0 m config h
  | fireBegin jobId => exact inv_executeHealthCheckBegin m jobId h
  | fireEnd now jobId outcome =>
      exact inv_executeHealthCheckEnd now m jobId outcome h
  | start now jobId => exact inv_startJob now m jobId h
  | stop jobId => exact inv_stopJob m jobId h
  | restart now jobId => exact inv_restartJob now m jobId h
  | recover now => exact inv_performHealthCheckSweep now m h
  | remove jobId => exact inv_removeJob m jobId h

theorem inv_run (cronValidate : String → Bool)
    (events : List SchedulerEvent) :
    ManagerInv (run cronValidate events) := by
  unfold run
  have h0 : ManagerInv init := by
    intro p hp
    cases hp
  generalize init = m0 at h0 ⊢
  induction events generalizing m0 with
  | nil => exact h0
  | cons e t ih => exact ih _ (inv_step cronValidate m0 e h0)

end CronJobManager

/-- C5. In every state reachable by any sequence of scheduler operations
from a fresh manager, every job satisfies errorCount ≤ runCount, and
whenever no execution of the job is in flight its runCount equals the
number of completed task-body executions (successful or failing). -/
theorem jobCounters_invariant (cronValidate : String → Bool)
    (events : List CronJobManager.SchedulerEvent) :
    ∀ p ∈ (CronJobManager.run cronValidate events).jobs,
      p.2.status.errorCount ≤ p.2.status.runCount ∧
      (p.2.inProgress = 0 → p.2.status.runCount = p.2.completions) := by
  intro p hp
  have hinv := CronJobManager.inv_run cronValidate events p hp
  have h1 : p.2.status.errorCount ≤ p.2.completions := hinv.1
  have h2 : p.2.status.runCount = p.2.completions + p.2.inProgress :=
    hinv.2
  exact ⟨by omega, fun hz => by omega⟩

/-- Witness for C5 on the concrete run: after one completed fire the
job's errorCount (0) is at most its runCount (1) and, with no execution
in flight, runCount equals the completion count. -/
theorem jobCounters_invariant_witness :
    ("health-monitoring", demoJob) ∈
      (CronJobManager.run (fun _ => true) demoEvents).jobs ∧
    demoJob.status.errorCount ≤ demoJob.status.runCount ∧
    demoJob.status.runCount = demoJob.completions := by
  refine ⟨by decide, ?_, ?_⟩
  · exact (jobCounters_invariant (fun _ => true) demoEvents
      ("health-monitoring", demoJob) (by decide)).1
  · exact (jobCounters_invariant (fun _ => true) demoEvents
      ("health-monitoring", demoJob) (by decide)).2 (by decide)

namespace CronJobManager

theorem setJob_jobs (m : CronJobManager) (jobId : String) (j : CronJob) :
    (setJob m jobId j).jobs = m.jobs.map (replaceEntry jobId j) := rfl

/-- find? under a different key ignores the replacement. -/
theorem find?_replace_other {jobId id' : String} (hne : id' ≠ jobId)
    (j : CronJob) :
    ∀ l : List (String × CronJob),
      (l.map (replaceEntry jobId j)).find? (fun p => p.1 = id') =
        l.find? (fun p => p.1 = id') := by
  intro l
  induction l with
  | nil => rfl
  | cons a t ih =>
      rw [List.map_cons]
      by_cases ha : a.1 = jobId
      · have h1 : replaceEntry jobId j a = (jobId, j) := by
          simp [replaceEntry, ha]
        rw [h1, List.find?_cons_of_neg _
            (by simpa using fun h => hne h.symm),
          List.find?_cons_of_neg _
            (by simp only [decide_eq_true_eq, ha]
                exact fun h => hne h.symm),
          ih]
      · have h1 : replaceEntry jobId j a = a := by
          simp [replaceEntry, ha]
        rw [h1]
        by_cases ha' : a.1 = id'
        · rw [List.find?_cons_of_pos _ (by simpa using ha'),
            List.find?_cons_of_pos _ (by simpa using ha')]
        · rw [List.find?_cons_of_neg _ (by simpa using ha'),
            List.find?_cons_of_neg _ (by simpa using ha'), ih]

/-- find? under the replaced key returns the replacement when the key was
present. -/
theorem find?_replace_same (jobId : String) (j : CronJob) :
    ∀ l : List (String × CronJob),
      (l.find? (fun p => p.1 = jobId)).isSome = true →
      (l.map (replaceEntry jobId j)).find? (fun p => p.1 = jobId) =
        some (jobId, j) := by
  intro l
  induction l with
  | nil =>
      intro h
      cases h
  | cons a t ih =>
      intro h
      rw [List.map_cons]
      by_cases ha : a.1 = jobId
      · have h1 : replaceEntry jobId j a = (jobId, j) := by
          simp [replaceEntry, ha]
        rw [h1, List.find?_cons_of_pos _ (by simp)]
      · have h1 : replaceEntry jobId j a = a := by
          simp [replaceEntry, ha]
        rw [h1, List.find?_cons_of_neg _ (by simpa using ha)]
        rw [List.find?_cons_of_neg _ (by simpa using ha)] at h
        exact ih h

/-- Replacing the job under a different id leaves a lookup unchanged. -/
theorem getJob_setJob_other {jobId id' : String} (hne : id' ≠ jobId)
    (m : CronJobManager) (j : CronJob) :
    getJob (setJob m jobId j) id' = getJob m id' := by
  unfold getJob
  rw [setJob_jobs, find?_replace_other hne]

/-- Replacing the job under an id that is present makes lookups under it
return the replacement. -/
theorem getJob_setJob_same {m : CronJobManager} {jobId : String}
    {j0 : CronJob} (h : getJob m jobId = some j0) (j : CronJob) :
    getJob (setJob m jobId j) jobId = some j := by
  unfold getJob at h ⊢
  rw [setJob_jobs]
  have hsome : (m.jobs.find? (fun p => p.1 = jobId)).isSome = true := by
    rcases hf : m.jobs.find? (fun p => p.1 = jobId) with _ | p
    · rw [hf] at h
      cases h
    · rw [hf]
      rfl
  rw [find?_replace_same jobId j m.jobs hsome]
  rfl

/-- Two consecutive replacements under the same id collapse to the last. -/
theorem setJob_setJob (m : CronJobManager) (jobId : String)
    (a b : CronJob) : setJob (setJob m jobId a) jobId b =
      setJob m jobId b := by
  unfold setJob
  congr 1
  show (m.jobs.map fun p => if p.1 = jobId then (jobId, a) else p).map
      (fun p => if p.1 = jobId then (jobId, b) else p) = _
  rw [List.map_map]
  refine List.map_congr_left ?_
  intro p _
  by_cases hp : p.1 = jobId
  · simp [Function.comp, hp]
  · simp [Function.comp, hp]

/-- Replacement does not change the key list of the job map. -/
theorem setJob_keys (m : CronJobManager) (jobId : String) (j : CronJob) :
    (setJob m jobId j).jobs.map Prod.fst = m.jobs.map Prod.fst := by
  unfold setJob
  show (m.jobs.map fun p => if p.1 = jobId then (jobId, j) else p).map
      Prod.fst = _
  rw [List.map_map]
  refine List.map_congr_left ?_
  intro p _
  by_cases hp : p.1 = jobId
  · simp [Function.comp, hp]
  · simp [Function.comp, hp]

/-- With distinct keys, find? locates every member of the list. -/
theorem find?_of_mem_nodup :
    ∀ (l : List (String × CronJob)), (l.map Prod.fst).Nodup →
      ∀ p ∈ l, l.find? (fun q => q.1 = p.1) = some p := by
  intro l
  induction l with
  | nil =>
      intro _ p hp
      cases hp
  | cons a t ih =>
      intro hnd p hp
      rw [List.map_cons, List.nodup_cons] at hnd
      rcases List.mem_cons.1 hp with rfl | hpt
      · rw [List.find?_cons_of_pos _ (by simp)]
      · have hne : ¬ a.1 = p.1 := by
          intro hkey
          exact hnd.1 (hkey ▸ List.mem_map.2 ⟨p, hpt, rfl⟩)
        rw [List.find?_cons_of_neg _ (by simpa using hne)]
        exact ih hnd.2 p hpt

/-- With distinct keys, every member of the job map is found by getJob. -/
theorem getJob_of_mem_nodup {m : CronJobManager}
    (hnd : (m.jobs.map Prod.fst).Nodup) :
    ∀ p ∈ m.jobs, getJob m p.1 = some p.2 := by
  intro p hp
  unfold getJob
  rw [find?_of_mem_nodup m.jobs hnd p hp]
  rfl

theorem stopJob_eq {m : CronJobManager} {jobId : String} {j : CronJob}
    (h : getJob m jobId = some j) :
    stopJob m jobId = (Except.ok true, setJob m jobId (stoppedJob j)) := by
  unfold stopJob
  rw [h]
  rfl

theorem startJob_eq {m : CronJobManager} {jobId : String} {j : CronJob}
    (now : Nat) (h : getJob m jobId = some j)
    (hnr : ¬ j.status.status = JobState.running) :
    startJob now m jobId =
      (Except.ok true, setJob m jobId
        { j with
          status :=
            { j.status with
              enabled := true, status := JobState.stopped,
              nextRun := some (now + 300000) } }) := by
  unfold startJob
  rw [h]
  dsimp only
  rw [if_neg hnr]
  rfl

/-- restartJob on an existing job always succeeds and replaces the job by
its recovered version. -/
theorem restartJob_eq {m : CronJobManager} {jobId : String} {j : CronJob}
    (now : Nat) (h : getJob m jobId = some j) :
    restartJob now m jobId =
      (Except.ok true, setJob m jobId (recoveredJob now j)) := by
  unfold restartJob
  rw [h]
  dsimp only
  rw [stopJob_eq h]
  dsimp only
  rw [getJob_setJob_same h (stoppedJob j)]
  dsimp only
  have hget2 : getJob (setJob (setJob m jobId (stoppedJob j)) jobId
      { stoppedJob j with
        status :=
          { (stoppedJob j).status with
            lastError := none, errorCount := 0 } }) jobId =
      some { stoppedJob j with
        status :=
          { (stoppedJob j).status with
            lastError := none, errorCount := 0 } } := by
    rw [setJob_setJob]
    exact getJob_setJob_same h _
  rw [startJob_eq now hget2
    (by intro hcon; exact JobState.noConfusion hcon)]
  rw [setJob_setJob, setJob_setJob]
  rfl

/-- Full characterization of one sweep iteration: only the visited job
changes (to its sweepTransform), keys are stable, and each counter is
bumped exactly when the visited job satisfies its predicate. -/
theorem sweepStep_spec (now : Nat) (m : CronJobManager) (c : SweepCounts)
    (jobId : String) :
    (∀ id', id' ≠ jobId →
      getJob (sweepStep now (m, c) jobId).1 id' = getJob m id') ∧
    getJob (sweepStep now (m, c) jobId).1 jobId =
      Option.map (sweepTransform now) (getJob m jobId) ∧
    (sweepStep now (m, c) jobId).1.jobs.map Prod.fst =
      m.jobs.map Prod.fst ∧
    (sweepStep now (m, c) jobId).2 =
      { totalJobs := c.totalJobs,
        healthyJobs :=
          c.healthyJobs + (if jobPred m healthyP jobId then 1 else 0),
        errorJobs :=
          c.errorJobs + (if jobPred m errP jobId then 1 else 0),
        recoveredJobs :=
          c.recoveredJobs + (if jobPred m recovP jobId then 1 else 0) } := by
  unfold sweepStep
  dsimp only
  rcases hg : getJob m jobId with _ | j
  · refine ⟨fun id' _ => rfl, ?_, rfl, ?_⟩
    · show getJob m jobId = Option.map (sweepTransform now) none
      rw [hg]
      rfl
    · simp [jobPred, hg]
  · dsimp only
    by_cases herr : j.status.status = JobState.error
    · rw [if_pos herr]
      by_cases hec : j.status.errorCount < 5
      · rw [if_pos hec, restartJob_eq now hg]
        dsimp only
        refine ⟨?_, ?_, setJob_keys m jobId _, ?_⟩
        · intro id' hne
          exact getJob_setJob_other hne m _
        · rw [getJob_setJob_same hg _]
          simp [sweepTransform, herr, hec]
        · have h1 : jobPred m errP jobId = true := by
            simp [jobPred, hg, errP, herr]
          have h2 : jobPred m recovP jobId = true := by
            simp [jobPred, hg, recovP, herr, hec]
          have h3 : jobPred m healthyP jobId = false := by
            simp only [jobPred, hg, healthyP]
            rw [herr]
            simp
          rw [h1, h2, h3]
          simp
      · rw [if_neg hec]
        dsimp only
        refine ⟨fun id' _ => rfl, ?_, rfl, ?_⟩
        · rw [hg]
          simp [sweepTransform, hec]
        · have h1 : jobPred m errP jobId = true := by
            simp [jobPred, hg, errP, herr]
          have h2 : jobPred m recovP jobId = false := by
            simp [jobPred, hg, recovP, hec]
          have h3 : jobPred m healthyP jobId = false := by
            simp only [jobPred, hg, healthyP]
            rw [herr]
            simp
          rw [h1, h2, h3]
          simp
    · rw [if_neg herr]
      by_cases hst : j.status.status = JobState.stopped ∧
          j.status.enabled = true
      · rw [if_pos hst]
        refine ⟨fun id' _ => rfl, ?_, rfl, ?_⟩
        · rw [hg]
          simp [sweepTransform, herr]
        · have h1 : jobPred m errP jobId = false := by
            simp [jobPred, hg, errP, herr]
          have h2 : jobPred m recovP jobId = false := by
            simp [jobPred, hg, recovP, herr]
          have h3 : jobPred m healthyP jobId = true := by
            simp [jobPred, hg, healthyP, hst.1, hst.2]
          rw [h1, h2, h3]
          simp
      · rw [if_neg hst]
        refine ⟨fun id' _ => rfl, ?_, rfl, ?_⟩
        · rw [hg]
          simp [sweepTransform, herr]
        · have h1 : jobPred m errP jobId = false := by
            simp [jobPred, hg, errP, herr]
          have h2 : jobPred m recovP jobId = false := by
            simp [jobPred, hg, recovP, herr]
          have h3 : jobPred m healthyP jobId = false := by
            simp [jobPred, hg, healthyP, hst]
          rw [h1, h2, h3]
          simp

/-- Characterization of the sweep's fold over a duplicate-free id list:
each listed job is replaced by its sweepTransform, unlisted jobs are
untouched, keys are stable, and the counters accumulate the number of
listed jobs satisfying each predicate. -/
theorem sweep_fold_spec (now : Nat) :
    ∀ (ids : List String), ids.Nodup →
    ∀ (m : CronJobManager) (c : SweepCounts),
      (∀ id', id' ∉ ids →
        getJob (ids.foldl (sweepStep now) (m, c)).1 id' = getJob m id') ∧
      (∀ id' ∈ ids,
        getJob (ids.foldl (sweepStep now) (m, c)).1 id' =
          Option.map (sweepTransform now) (getJob m id')) ∧
      (ids.foldl (sweepStep now) (m, c)).1.jobs.map Prod.fst =
        m.jobs.map Prod.fst ∧
      (ids.foldl (sweepStep now) (m, c)).2 =
        { totalJobs := c.totalJobs,
          healthyJobs :=
            c.healthyJobs + ids.countP (fun id => jobPred m healthyP id),
          errorJobs :=
            c.errorJobs + ids.countP (fun id => jobPred m errP id),
          recoveredJobs :=
            c.recoveredJobs +
              ids.countP (fun id => jobPred m recovP id) } := by
  intro ids
  induction ids with
  | nil =>
      intro _ m c
      refine ⟨fun _ _ => rfl, fun id' h => absurd h (List.not_mem_nil id'),
        rfl, ?_⟩
      simp
  | cons a t ih =>
      intro hnd m c
      rw [List.nodup_cons] at hnd
      have hstep := sweepStep_spec now m c a
      rcases hsp : sweepStep now (m, c) a with ⟨m1, c1⟩
      rw [hsp] at hstep
      have hstep1 : ∀ id', id' ≠ a → getJob m1 id' = getJob m id' :=
        hstep.1
      have hstep2 : getJob m1 a =
          Option.map (sweepTransform now) (getJob m a) := hstep.2.1
      have hstep3 : m1.jobs.map Prod.fst = m.jobs.map Prod.fst :=
        hstep.2.2.1
      have hstep4 : c1 =
          { totalJobs := c.totalJobs,
            healthyJobs :=
              c.healthyJobs + (if jobPred m healthyP a then 1 else 0),
            errorJobs :=
              c.errorJobs + (if jobPred m errP a then 1 else 0),
            recoveredJobs :=
              c.recoveredJobs + (if jobPred m recovP a then 1 else 0) } :=
        hstep.2.2.2
      have hih := ih hnd.2 m1 c1
      have hfold : (a :: t).foldl (sweepStep now) (m, c) =
          t.foldl (sweepStep now) (m1, c1) := by
        rw [List.foldl_cons, hsp]
      rw [hfold]
      have hframe : ∀ id' ∈ t, getJob m1 id' = getJob m id' := by
        intro id' hmem
        exact hstep1 id' (fun hcon => hnd.1 (hcon ▸ hmem))
      refine ⟨?_, ?_, ?_, ?_⟩
      · intro id' hnotin
        rw [hih.1 id' (fun h => hnotin (List.mem_cons_of_mem a h)),
          hstep1 id' (fun h => hnotin (h ▸ List.mem_cons_self a t))]
      · intro id' hmem
        rcases List.mem_cons.1 hmem with rfl | hmt
        · rw [hih.1 id' hnd.1, hstep2]
        · rw [hih.2.1 id' hmt, hframe id' hmt]
      · rw [hih.2.2.1, hstep3]
      · rw [hih.2.2.2, hstep4]
        have hc1 : ∀ q : CronJob → Bool,
            t.countP (fun id => jobPred m1 q id) =
              t.countP (fun id => jobPred m q id) := by
          intro q
          refine List.countP_congr ?_
          intro id hmem
          unfold jobPred
          rw [hframe id hmem]
        rw [hc1 healthyP, hc1 errP, hc1 recovP]
        simp only [List.countP_cons, SweepCounts.mk.injEq]
        refine ⟨trivial, ?_, ?_, ?_⟩ <;> omega

end CronJobManager

/-- C6. The automatic recovery sweep (CronJobManager.performHealthCheck)
restarts exactly those jobs that are in error state with errorCount
strictly below 5: such a job ends recovered — errorCount 0, lastError
cleared, status stopped (and enabled, with nextRun recomputed) — while a
job whose errorCount has reached 5, and every job not in error state, is
left untouched; the returned counts are the total number of jobs, the
number of healthy (stopped and enabled) jobs, the number of error-state
jobs, and the number of recovered jobs. -/
theorem recoverErrors_sweep_spec (now : Nat) (m : CronJobManager)
    (hnd : (m.jobs.map Prod.fst).Nodup) :
    (CronJobManager.performHealthCheckSweep now m).2.totalJobs =
      m.jobs.length ∧
    (CronJobManager.performHealthCheckSweep now m).2.errorJobs =
      m.jobs.countP (fun p => CronJobManager.errP p.2) ∧
    (CronJobManager.performHealthCheckSweep now m).2.recoveredJobs =
      m.jobs.countP (fun p => CronJobManager.recovP p.2) ∧
    (CronJobManager.performHealthCheckSweep now m).2.healthyJobs =
      m.jobs.countP (fun p => CronJobManager.healthyP p.2) ∧
    ∀ jobId j, CronJobManager.getJob m jobId = some j →
      (j.status.status = JobState.error → j.status.errorCount < 5 →
        CronJobManager.getJob
            (CronJobManager.performHealthCheckSweep now m).1 jobId =
          some (CronJobManager.recoveredJob now j) ∧
        (CronJobManager.recoveredJob now j).status.errorCount = 0 ∧
        (CronJobManager.recoveredJob now j).status.lastError = none ∧
        (CronJobManager.recoveredJob now j).status.status =
          JobState.stopped ∧
        (CronJobManager.recoveredJob now j).status.runCount =
          j.status.runCount) ∧
      (¬ (j.status.status = JobState.error ∧ j.status.errorCount < 5) →
        CronJobManager.getJob
            (CronJobManager.performHealthCheckSweep now m).1 jobId =
          some j) := by
  have hEq : CronJobManager.performHealthCheckSweep now m =
      (m.jobs.map Prod.fst).foldl (CronJobManager.sweepStep now)
        (m, { totalJobs := m.jobs.length, healthyJobs := 0,
              errorJobs := 0, recoveredJobs := 0 }) := rfl
  have hfold := CronJobManager.sweep_fold_spec now (m.jobs.map Prod.fst)
    hnd m { totalJobs := m.jobs.length, healthyJobs := 0,
            errorJobs := 0, recoveredJobs := 0 }
  have hcount : ∀ q : CronJob → Bool,
      (m.jobs.map Prod.fst).countP
          (fun id => CronJobManager.jobPred m q id) =
        m.jobs.countP (fun p => q p.2) := by
    intro q
    rw [List.countP_map]
    refine List.countP_congr ?_
    intro p hp
    simp [Function.comp, CronJobManager.jobPred,
      CronJobManager.getJob_of_mem_nodup hnd p hp]
  rw [hEq]
  refine ⟨?_, ?_, ?_, ?_, ?_⟩
  · rw [hfold.2.2.2]
  · rw [hfold.2.2.2]
    show 0 + _ = _
    rw [Nat.zero_add, hcount]
  · rw [hfold.2.2.2]
    show 0 + _ = _
    rw [Nat.zero_add, hcount]
  · rw [hfold.2.2.2]
    show 0 + _ = _
    rw [Nat.zero_add, hcount]
  · intro jobId j hg
    have hmem : jobId ∈ m.jobs.map Prod.fst :=
      List.mem_map.2 ⟨(jobId, j), CronJobManager.getJob_mem hg, rfl⟩
    have hown := hfold.2.1 jobId hmem
    rw [hg] at hown
    constructor
    · intro herr hec
      rw [hown]
      refine ⟨?_, rfl, rfl, rfl, rfl⟩
      show some (CronJobManager.sweepTransform now j) =
        some (CronJobManager.recoveredJob now j)
      unfold CronJobManager.sweepTransform
      rw [if_pos ⟨herr, hec⟩]
    · intro hnot
      rw [hown]
      show some (CronJobManager.sweepTransform now j) = some j
      unfold CronJobManager.sweepTransform
      rw [if_neg hnot]

/-- Witness for C6 on the concrete manager: the sweep reports 3 total,
2 error, 1 healthy and 1 recovered job; the errorCount-2 job ends
recovered (errorCount 0, lastError cleared, status stopped) while the
errorCount-5 job is left untouched. -/
theorem recoverErrors_sweep_spec_witness :
    (CronJobManager.performHealthCheckSweep 0 sweepDemoManager).2.totalJobs
        = 3 ∧
    (CronJobManager.performHealthCheckSweep 0 sweepDemoManager).2.errorJobs
        = 2 ∧
    (CronJobManager.performHealthCheckSweep 0
        sweepDemoManager).2.recoveredJobs = 1 ∧
    (CronJobManager.performHealthCheckSweep 0
        sweepDemoManager).2.healthyJobs = 1 ∧
    CronJobManager.getJob
        (CronJobManager.performHealthCheckSweep 0 sweepDemoManager).1 "a" =
      some (CronJobManager.recoveredJob 0 sweepErrJob2) ∧
    (CronJobManager.recoveredJob 0 sweepErrJob2).status.errorCount = 0 ∧
    CronJobManager.getJob
        (CronJobManager.performHealthCheckSweep 0 sweepDemoManager).1 "b" =
      some sweepErrJob5 := by
  have h := recoverErrors_sweep_spec 0 sweepDemoManager (by decide)
  refine ⟨?_, ?_, ?_, ?_, ?_, ?_, ?_⟩
  · rw [h.1]
    decide
  · rw [h.2.1]
    decide
  · rw [h.2.2.1]
    decide
  · rw [h.2.2.2.1]
    decide
  · exact ((h.2.2.2.2 "a" sweepErrJob2 (by decide)).1 (by decide)
      (by decide)).1
  · exact ((h.2.2.2.2 "a" sweepErrJob2 (by decide)).1 (by decide)
      (by decide)).2.1
  · exact (h.2.2.2.2 "b" sweepErrJob5 (by decide)).2 (by decide)

/-- C7 counterexample. Calling stopJob twice in a row on a registered job
returns true BOTH times — stopJob returns true whenever the job exists
(its catch branch is unreachable since task.stop does not throw) — while
the claim asserts the second call returns false. -/
theorem stopJob_twice_cex :
    (CronJobManager.stopJob
        (CronJobManager.stopJob stopDemoManager "health-monitoring").2
        "health-monitoring").1 = Except.ok true ∧
    (Except.ok true : Except String Bool) ≠ Except.ok false := by
  refine ⟨rfl, ?_⟩
  intro hcon
  simp at hcon

/-- C7 amended. Stopping a registered job is idempotent in effect: both
consecutive calls return true (never false), after the first call the job
is disabled, stopped and has its nextRun cleared, and the second call
leaves the state exactly as the first left it. -/
theorem stopJob_idempotent_amended (m : CronJobManager) (jobId : String)
    (j : CronJob) (h : CronJobManager.getJob m jobId = some j) :
    (CronJobManager.stopJob m jobId).1 = Except.ok true ∧
    (CronJobManager.stopJob (CronJobManager.stopJob m jobId).2
        jobId).1 = Except.ok true ∧
    (CronJobManager.stopJob (CronJobManager.stopJob m jobId).2 jobId).2 =
      (CronJobManager.stopJob m jobId).2 ∧
    ∀ j', CronJobManager.getJob (CronJobManager.stopJob m jobId).2 jobId =
        some j' →
      j'.status.enabled = false ∧ j'.status.status = JobState.stopped ∧
      j'.status.nextRun = none := by
  have h1 := CronJobManager.stopJob_eq h
  have hget2 : CronJobManager.getJob (CronJobManager.stopJob m jobId).2
      jobId = some (CronJobManager.stoppedJob j) := by
    rw [h1]
    exact CronJobManager.getJob_setJob_same h _
  have h2 := CronJobManager.stopJob_eq hget2
  refine ⟨by rw [h1], by rw [h2], ?_, ?_⟩
  · rw [h2, h1]
    dsimp only
    rw [CronJobManager.setJob_setJob]
    rfl
  · intro j' hj'
    rw [hget2] at hj'
    injection hj' with hj''
    subst hj''
    exact ⟨rfl, rfl, rfl⟩

/-- Witness for C7's amended theorem on the concrete one-job manager:
both stop calls return true and the stopped job is disabled with nextRun
cleared. -/
theorem stopJob_idempotent_amended_witness :
    (CronJobManager.stopJob stopDemoManager "health-monitoring").1 =
      Except.ok true ∧
    (CronJobManager.stopJob
        (CronJobManager.stopJob stopDemoManager "health-monitoring").2
        "health-monitoring").1 = Except.ok true ∧
    (CronJobManager.stoppedJob stopDemoJob).status.enabled = false ∧
    (CronJobManager.stoppedJob stopDemoJob).status.nextRun = none := by
  have h := stopJob_idempotent_amended stopDemoManager "health-monitoring"
    stopDemoJob (by decide)
  refine ⟨h.1, h.2.1, ?_, ?_⟩
  · exact (h.2.2.2 (CronJobManager.stoppedJob stopDemoJob) (by decide)).1
  · exact (h.2.2.2 (CronJobManager.stoppedJob stopDemoJob)
      (by decide)).2.2

/-- C9 counterexample. The manual trigger leaves the job's runCount at 2
on the concrete manager, while a scheduled fire of executeHealthCheck
from the same state leaves runCount = 3 — so the trigger does NOT update
the counters as a scheduled fire would, contrary to the claim. -/
theorem triggerHealthCheck_counters_cex :
    (CronJobManager.getJob (triggerHealthCheck ep500 2 stopDemoManager).2
        "health-monitoring").map (fun j => j.status.runCount) = some 2 ∧
    (CronJobManager.getJob
        (CronJobManager.executeHealthCheckEnd 0
          (CronJobManager.executeHealthCheckBegin stopDemoManager
            "health-monitoring") "health-monitoring" none)
        "health-monitoring").map (fun j => j.status.runCount) = some 3 ∧
    some (2 : Nat) ≠ some 3 := by
  refine ⟨rfl, rfl, by decide⟩

/-- C9 amended. The manual trigger executes performHealthCheckWithRetry
immediately and returns its result, leaves the cron schedule unaltered,
and — unlike a scheduled fire — does not touch the job map at all: every
job's status, runCount and errorCount are exactly as before. -/
theorem triggerHealthCheck_frame_amended (endpoint : Nat → ProbeOutcome)
    (maxRetries : Nat) (m : CronJobManager) :
    (triggerHealthCheck endpoint maxRetries m).1 =
      (performHealthCheckWithRetry endpoint maxRetries).result ∧
    (triggerHealthCheck endpoint maxRetries m).2 = m ∧
    ∀ jobId, CronJobManager.getJob
        (triggerHealthCheck endpoint maxRetries m).2 jobId =
      CronJobManager.getJob m jobId :=
  ⟨rfl, rfl, fun _ => rfl⟩

/-- C8 counterexample. On a configuration whose schedule is empty AND
whose timeout is 0, validateConfig throws the single message "Cron
schedule is required", which names only the schedule — not every
offending field — so the claimed aggregated validation failure is false. -/
theorem validateConfig_first_error_cex :
    validateConfig cfgScheduleAndTimeout =
      Except.error "Cron schedule is required" ∧
    offendingFields cfgScheduleAndTimeout =
      [ConfigField.scheduleField, ConfigField.timeoutField] ∧
    errorField "Cron schedule is required" =
      some ConfigField.scheduleField ∧
    [ConfigField.scheduleField] ≠
      [ConfigField.scheduleField, ConfigField.timeoutField] := by
  refine ⟨rfl, by decide, by decide, by decide⟩

/-- C8 amended. validateConfig accepts exactly the configurations with no
offending field; on a violating configuration it throws one error naming
exactly the FIRST offending field in the fixed check order (endpoint,
schedule, maxRetries, retryDelay, timeout, log file path) — in particular
an empty schedule (with a non-empty endpoint) is reported as the schedule
and a zero timeout with all earlier fields valid is reported as the
timeout — rather than one aggregated failure naming every offending
field. -/
theorem validateConfig_spec_amended (c : HealthMonitoringConfig) :
    (validateConfig c = Except.ok () ↔ offendingFields c = []) ∧
    (∀ e, validateConfig c = Except.error e →
      errorField e = (offendingFields c).head?) ∧
    (offendingFields c ≠ [] →
      ∃ e, validateConfig c = Except.error e) := by
  unfold validateConfig offendingFields
  split_ifs <;>
    refine ⟨?_, ?_, ?_⟩ <;>
      simp_all [errorField]

/-- Witness for C8's amended theorem: on the schedule-and-timeout
violating configuration the thrown message names exactly the first
offending field (the schedule), and the fully valid configuration passes
with no error. -/
theorem validateConfig_spec_amended_witness :
    errorField "Cron schedule is required" =
      (offendingFields cfgScheduleAndTimeout).head? ∧
    validateConfig fullyValidCfg = Except.ok () := by
  constructor
  · exact (validateConfig_spec_amended cfgScheduleAndTimeout).2.1
      "Cron schedule is required" rfl
  · exact (validateConfig_spec_amended fullyValidCfg).1.2 (by decide)

/-- C10. updateConfig merges only at the top level: when the update
carries a logging section L, the whole stored logging section becomes L —
so a field omitted from L is undefined afterwards even if the old section
had it — the cronJob section is likewise replaced wholesale when
supplied (kept when not), and the logger is reconstructed from the
replaced section L alone. -/
theorem updateConfig_shallow_merge (c : HealthMonitoringConfig)
    (p : HealthMonitoringConfigUpdate) (L : LoggingSection)
    (hL : p.logging = some L) :
    ∀ cfg li, updateConfig c p = Except.ok (cfg, li) →
      cfg.logging = L ∧
      (L.maxFiles = none → cfg.logging.maxFiles = none) ∧
      cfg.cronJob = p.cronJob.getD c.cronJob ∧
      (∀ cc, p.cronJob = some cc → cfg.cronJob = cc) ∧
      li = (mkLoggerInit L).toOption ∧
      ∀ init, li = some init →
        init.filePath = L.filePath ∧ init.maxFiles = L.maxFiles ∧
        init.format = L.format := by
  intro cfg li hok
  unfold updateConfig at hok
  rw [hL] at hok
  simp only [Option.isSome_some, if_true, Option.getD_some] at hok
  rcases hmk : mkLoggerInit L with e | init0
  · rw [hmk] at hok
    cases hok
  · rw [hmk] at hok
    injection hok with hok'
    have hcfg : cfg =
        { cronJob := p.cronJob.getD c.cronJob,
          healthCheckEndpoint :=
            p.healthCheckEndpoint.getD c.healthCheckEndpoint,
          logging := L } := by
      have := congrArg Prod.fst hok'
      exact this.symm
    have hli : li = some init0 := by
      have := congrArg Prod.snd hok'
      exact this.symm
    subst hcfg
    refine ⟨rfl, fun h => h, rfl, ?_, ?_, ?_⟩
    · intro cc hcc
      rw [hcc]
      rfl
    · rw [hli]
      rfl
    · intro init hinit
      rw [hli] at hinit
      injection hinit with hinit'
      subst hinit'
      unfold mkLoggerInit at hmk
      rcases hms : L.maxFileSize with _ | s
      · rw [hms] at hmk
        cases hmk
      · rw [hms] at hmk
        dsimp only at hmk
        rcases hps : parseFileSize s with e | n
        · rw [hps] at hmk
          cases hmk
        · rw [hps] at hmk
          injection hmk with hmk'
          rw [← hmk']
          exact ⟨rfl, rfl, rfl⟩

/-- Witness for C10 on the concrete update: although the stored logging
section had maxFiles = some 3, the updated configuration's logging
section is exactly the supplied one — its omitted maxFiles is undefined —
and the logger is rebuilt from the supplied section. -/
theorem updateConfig_shallow_merge_witness :
    fullyValidCfg.logging.maxFiles = some 3 ∧
    updateDemoResult.logging = updateDemoSection ∧
    updateDemoResult.logging.maxFiles = none ∧
    updateDemoResult.cronJob = fullyValidCfg.cronJob ∧
    updateDemoInit.filePath = updateDemoSection.filePath := by
  have h := updateConfig_shallow_merge fullyValidCfg updateDemo
    updateDemoSection rfl updateDemoResult (some updateDemoInit) rfl
  refine ⟨rfl, h.1, h.2.1 rfl, h.2.2.1, (h.2.2.2.2.2 updateDemoInit rfl).1⟩
